import Mathlib

/-!
Verification development for the hypervisor control plane: a shallow
embedding of the VM/VCPU lifecycle, the memory-region bookkeeping, the
global initialization gate, and the EPT second-level translation engine,
together with theorems settling the specification's claims about them.

Machine integers are modelled as `Nat` with explicit `% 2 ^ 64` where the
source's `u64` arithmetic can wrap.  Fallible operations return `Except`,
and functions that mutate state in the source thread the state explicitly,
returning it alongside the result so that partially-completed mutations
made before an error are visible.
-/

namespace Hypervisor

/-- Error kinds of the hypervisor layer (`hypervisor/mod.rs`, extended with
the `OutOfMemory` and `InitializationFailed` kinds used by the EPT mapper
and the VMX/SVM enable paths). -/
inductive HypervisorError where
  | NotSupported
  | AlreadyInitialized
  | InvalidVmId
  | InvalidVcpuId
  | MaxVmsReached
  | MaxVcpusReached
  | MemoryAllocationFailed
  | InvalidMemoryRegion
  | ArchError (code : Nat)
  | OutOfMemory
  | InitializationFailed
deriving DecidableEq, Repr

/-! ## VCPU model (`hypervisor/vcpu.rs` composed with the x86_64 backend
stubs of `hypervisor/arch/x86_64/mod.rs`) -/

/-- VCPU lifecycle states (`vcpu.rs`). -/
inductive VcpuState where
  | Stopped
  | Running
  | Waiting
  | Exited
deriving DecidableEq, Repr

/-- VCPU exit reasons (`vcpu.rs`). -/
inductive VcpuExit where
  | Unknown
  | ExternalInterrupt
  | Exception (vector : Nat)
  | Io (port : Nat) (size : Nat) (write : Bool)
  | Mmio (addr : Nat) (size : Nat) (write : Bool)
  | Halt
  | Shutdown
  | Hypercall (nr : Nat)
  | Debug
  | InternalError (code : Nat)
deriving DecidableEq, Repr

/-- Architecture-neutral register snapshot (`vcpu.rs`). -/
structure VcpuRegs where
  pc : Nat
  sp : Nat
  gpr : List Nat
  flags : Nat
deriving DecidableEq, Repr

/-- The all-zero register snapshot (Rust `VcpuRegs::default()`). -/
def VcpuRegs.zero : VcpuRegs :=
  { pc := 0, sp := 0, gpr := List.replicate 32 0, flags := 0 }

/-- VCPU configuration (`vcpu.rs`). -/
structure VcpuConfig where
  index : Nat
  initial_regs : Option VcpuRegs
deriving DecidableEq, Repr

/-- The VCPU record (`vcpu.rs`): id, owning VM id, state, configuration,
generic register snapshot and last exit reason. -/
structure Vcpu where
  id : Nat
  vm_id : Nat
  state : VcpuState
  config : VcpuConfig
  regs : VcpuRegs
  last_exit : VcpuExit
deriving DecidableEq, Repr

/-- `ArchVcpuData::set_regs` of the x86_64 backend: a stub that always
succeeds (`arch/x86_64/mod.rs`). -/
def ArchVcpuData.set_regs (_regs : VcpuRegs) : Except HypervisorError Unit :=
  .ok ()

/-- `ArchVcpuData::get_regs` of the x86_64 backend: a stub returning the
default (all-zero) snapshot (`arch/x86_64/mod.rs`). -/
def ArchVcpuData.get_regs : Except HypervisorError VcpuRegs :=
  .ok VcpuRegs.zero

/-- `ArchVcpuData::run` of the x86_64 backend: a stub returning
`VcpuExit::Unknown` (`arch/x86_64/mod.rs`). -/
def ArchVcpuData.run : Except HypervisorError VcpuExit :=
  .ok .Unknown

/-- `Vcpu::new` (`vcpu.rs`): fresh VCPU in `Stopped` state with the
configured initial registers (or the all-zero default) and `Unknown` as the
last exit reason. -/
def Vcpu.new (id vm_id : Nat) (config : VcpuConfig) : Vcpu :=
  { id := id
    vm_id := vm_id
    state := .Stopped
    config := config
    regs := config.initial_regs.getD VcpuRegs.zero
    last_exit := .Unknown }

/-- `Vcpu::run` (`vcpu.rs`): requires `Stopped`, pushes registers into the
ECB, enters the guest, pulls registers back, records the exit reason and
moves to `Exited`. -/
def Vcpu.run (v : Vcpu) : Except HypervisorError VcpuExit × Vcpu :=
  if v.state ≠ VcpuState.Stopped then
    (.error (.ArchError 0), v)
  else
    let v1 := { v with state := VcpuState.Running }
    match ArchVcpuData.set_regs v1.regs with
    | .error e => (.error e, v1)
    | .ok () =>
      match ArchVcpuData.run with
      | .error e => (.error e, v1)
      | .ok exit_reason =>
        match ArchVcpuData.get_regs with
        | .error e => (.error e, v1)
        | .ok r =>
          (.ok exit_reason,
            { v1 with regs := r, last_exit := exit_reason, state := VcpuState.Exited })

/-- `Vcpu::resume` (`vcpu.rs`): requires `Exited`, then performs the same
synchronize/enter/synchronize/record sequence as `run`. -/
def Vcpu.resume (v : Vcpu) : Except HypervisorError VcpuExit × Vcpu :=
  if v.state ≠ VcpuState.Exited then
    (.error (.ArchError 1), v)
  else
    let v1 := { v with state := VcpuState.Running }
    match ArchVcpuData.set_regs v1.regs with
    | .error e => (.error e, v1)
    | .ok () =>
      match ArchVcpuData.run with
      | .error e => (.error e, v1)
      | .ok exit_reason =>
        match ArchVcpuData.get_regs with
        | .error e => (.error e, v1)
        | .ok r =>
          (.ok exit_reason,
            { v1 with regs := r, last_exit := exit_reason, state := VcpuState.Exited })

/-- `Vcpu::stop` (`vcpu.rs`): unconditionally sets `Stopped` and succeeds. -/
def Vcpu.stop (v : Vcpu) : Except HypervisorError Unit × Vcpu :=
  (.ok (), { v with state := VcpuState.Stopped })

/-! ## VM state and memory regions (`hypervisor/vm.rs`) -/

/-- VM lifecycle states (`vm.rs`). -/
inductive VmState where
  | Creating
  | Stopped
  | Running
  | Paused
  | Destroying
deriving DecidableEq, Repr

/-- `Vm::set_state` (`vm.rs`): an unconditional store of the requested
state; the current state is not consulted. -/
def Vm.set_state (_current target : VmState) : VmState :=
  target

/-- The state a VM is constructed in (`Vm::new` stores `Creating`). -/
def Vm.initialState : VmState :=
  VmState.Creating

/-- The VM states reachable through the code's state-changing operations:
construction (`Vm::new`) and `Vm::set_state`. -/
inductive vmReachable : VmState → Prop where
  | init : vmReachable Vm.initialState
  | step (s target : VmState) : vmReachable s → vmReachable (Vm.set_state s target)

/-- Modelled from the spec: the legal VM transition order of §4.3
(Creating → Stopped → Running ⇄ Paused → Destroying; Destroying reachable
from any non-terminal state and terminal). -/
def specLegalVmTransition (s t : VmState) : Bool :=
  match s, t with
  | .Creating, .Stopped => true
  | .Stopped, .Running => true
  | .Running, .Paused => true
  | .Paused, .Running => true
  | .Creating, .Destroying => true
  | .Stopped, .Destroying => true
  | .Running, .Destroying => true
  | .Paused, .Destroying => true
  | _, _ => false

/-- A guest physical memory region (`vm.rs`): guest physical base, host
physical base, byte size and flag bits. -/
structure MemoryRegion where
  gpa : Nat
  hpa : Nat
  size : Nat
  flags : Nat
deriving DecidableEq, Repr

/-- `regions_overlap` (`vm.rs`): the end addresses are computed in `u64`
arithmetic, which wraps modulo `2 ^ 64`. -/
def regions_overlap (a b : MemoryRegion) : Bool :=
  let a_end := (a.gpa + a.size) % 2 ^ 64
  let b_end := (b.gpa + b.size) % 2 ^ 64
  decide (a.gpa < b_end) && decide (b.gpa < a_end)

/-- `ArchVmData::map_memory` of the x86_64 backend: a stub that always
succeeds (`arch/x86_64/mod.rs`). -/
def ArchVmData.map_memory (_region : MemoryRegion) : Except HypervisorError Unit :=
  .ok ()

/-- `ArchVmData::unmap_memory` of the x86_64 backend: a stub that always
succeeds (`arch/x86_64/mod.rs`). -/
def ArchVmData.unmap_memory (_region : MemoryRegion) : Except HypervisorError Unit :=
  .ok ()

/-- `Vm::map_memory` (`vm.rs`), parameterized by the architecture backend's
`map_memory` collaborator: scan the recorded regions for overlap, reject
with `InvalidMemoryRegion` on overlap, otherwise delegate to the backend
and append the region descriptor.  The final region list is returned
alongside the result. -/
def Vm.map_memory (arch : MemoryRegion → Except HypervisorError Unit)
    (regions : List MemoryRegion) (region : MemoryRegion) :
    Except HypervisorError Unit × List MemoryRegion :=
  if regions.any (fun existing => regions_overlap existing region) then
    (.error .InvalidMemoryRegion, regions)
  else
    match arch region with
    | .error e => (.error e, regions)
    | .ok () => (.ok (), regions ++ [region])

/-- The predicate `Vm::unmap_memory` matches regions with: exact equality
on both guest address and size. -/
def unmapMatches (gpa size : Nat) (r : MemoryRegion) : Bool :=
  decide (r.gpa = gpa) && decide (r.size = size)

/-- `Vm::unmap_memory` (`vm.rs`), parameterized by the architecture
backend's `unmap_memory` collaborator: find the position of the first
region matching `gpa` and `size` exactly (`InvalidMemoryRegion` if none),
remove that descriptor from the list, then delegate to the backend.  The
final region list is returned alongside the result. -/
def Vm.unmap_memory (arch : MemoryRegion → Except HypervisorError Unit)
    (regions : List MemoryRegion) (gpa size : Nat) :
    Except HypervisorError Unit × List MemoryRegion :=
  match regions.findIdx? (unmapMatches gpa size) with
  | none => (.error .InvalidMemoryRegion, regions)
  | some idx =>
    let region := regions.getD idx ⟨0, 0, 0, 0⟩
    let remaining := regions.eraseIdx idx
    match arch region with
    | .error e => (.error e, remaining)
    | .ok () => (.ok (), remaining)

/-! ## Global initialization (`hypervisor/mod.rs` composed with
`arch/x86_64/mod.rs`, `vmx.rs`, `svm.rs`)

The hardware primitives (CPUID feature bits, firmware MSR bits, the VMXON /
EFER.SVME enable steps) are external collaborators; they are modelled as a
record of outcomes fixed for the duration of a call. -/

/-- Virtualization technology selected by the x86_64 backend. -/
inductive VirtTech where
  | Vmx
  | Svm
deriving DecidableEq, Repr

/-- Outcomes of the opaque hardware probes and enable steps used during
initialization. -/
structure Hw where
  /-- CPUID.1:ECX.VMX — `vmx::is_available`. -/
  vmxAvailable : Bool
  /-- CPUID.80000001h:ECX.SVM — `svm::is_available`. -/
  svmAvailable : Bool
  /-- IA32_FEATURE_CONTROL lock+enable — `vmx::is_enabled_in_firmware`. -/
  vmxFirmwareEnabled : Bool
  /-- VM_CR.SVMDIS — `svm::is_disabled_in_firmware`. -/
  svmFirmwareDisabled : Bool
  /-- Outcome of `vmx::enable_vmx_operation` (frame allocation plus the
  VMXON instruction). -/
  vmxEnable : Except HypervisorError Unit
  /-- Outcome of `svm::enable_svm_operation`. -/
  svmEnable : Except HypervisorError Unit
deriving Repr

/-- Supported-mode bitset values (`ModeSupportFlags` in `mod.rs`). -/
def ModeSupportFlags.TYPE1 : Nat := 1
/-- VirtIO mode bit. -/
def ModeSupportFlags.VIRTIO : Nat := 2
/-- HVT mode bit. -/
def ModeSupportFlags.HVT : Nat := 4

/-- Supported architectures (`mod.rs`). -/
inductive HypervisorArch where
  | X86_64
  | Aarch64
  | Riscv64
deriving DecidableEq, Repr

/-- Capability report (`mod.rs`). -/
structure HypervisorCaps where
  hw_virt_available : Bool
  arch : HypervisorArch
  max_vms : Nat
  max_vcpus_per_vm : Nat
  nested_virt : Bool
  supported_modes : Nat
deriving DecidableEq, Repr

/-- `detect_virt_tech` (`arch/x86_64/mod.rs`): VMX first, then SVM, else
`NotSupported`. -/
def detect_virt_tech (hw : Hw) : Except HypervisorError VirtTech :=
  if hw.vmxAvailable then .ok .Vmx
  else if hw.svmAvailable then .ok .Svm
  else .error .NotSupported

/-- `detect_capabilities` (`arch/x86_64/mod.rs`): on success the report
always shows hardware virtualization available, the x86_64 architecture,
64 VMs, 256 VCPUs per VM, no nested virtualization and all three modes. -/
def detect_capabilities (hw : Hw) : Except HypervisorError HypervisorCaps :=
  match detect_virt_tech hw with
  | .error e => .error e
  | .ok _ =>
    .ok { hw_virt_available := true
          arch := .X86_64
          max_vms := 64
          max_vcpus_per_vm := 256
          nested_virt := false
          supported_modes :=
            ModeSupportFlags.TYPE1 ||| ModeSupportFlags.VIRTIO ||| ModeSupportFlags.HVT }

/-- `vmx::init` (`arch/x86_64/vmx.rs`): availability check, firmware check,
then the enable step. -/
def vmxInit (hw : Hw) : Except HypervisorError Unit :=
  if ¬ hw.vmxAvailable then .error .NotSupported
  else if ¬ hw.vmxFirmwareEnabled then .error .NotSupported
  else hw.vmxEnable

/-- `svm::init` (`arch/x86_64/svm.rs`): availability check, firmware check,
then the enable step. -/
def svmInit (hw : Hw) : Except HypervisorError Unit :=
  if ¬ hw.svmAvailable then .error .NotSupported
  else if hw.svmFirmwareDisabled then .error .NotSupported
  else hw.svmEnable

/-- `arch::init` for x86_64 (`arch/x86_64/mod.rs`): re-detect the
technology, then run the vendor initialization. -/
def archInit (hw : Hw) : Except HypervisorError Unit :=
  match detect_virt_tech hw with
  | .error e => .error e
  | .ok .Vmx => vmxInit hw
  | .ok .Svm => svmInit hw

/-- Global `init` (`hypervisor/mod.rs`).  The process-wide initialized flag
is passed in and returned: `init` first swaps it to `true` (returning
`AlreadyInitialized` if it was already set), then detects capabilities,
clears the flag again only when the report shows no hardware
virtualization, and finally runs the architecture backend initialization.
Note that errors propagated from `detect_capabilities` or `arch::init`
leave the flag set. -/
def init (hw : Hw) (flag : Bool) : Except HypervisorError HypervisorCaps × Bool :=
  if flag then
    (.error .AlreadyInitialized, true)
  else
    match detect_capabilities hw with
    | .error e => (.error e, true)
    | .ok caps =>
      if ¬ caps.hw_virt_available then
        (.error .NotSupported, false)
      else
        match archInit hw with
        | .error e => (.error e, true)
        | .ok () => (.ok caps, true)

/-- `is_initialized` (`hypervisor/mod.rs`): reads the flag. -/
def is_initialized (flag : Bool) : Bool :=
  flag

/-! ## EPT translation engine (`hypervisor/arch/x86_64/ept.rs`)

Physical memory holding the page tables is modelled as a total function
from (frame base, entry index) to the 64-bit entry value, together with the
frame allocator's remaining free list.  All entry values are `Nat`s below
`2 ^ 64`; the bit manipulations of the source (`&`, `|`, shifts) are
translated to the corresponding `Nat` bitwise operations, which cannot
overflow. -/

/-- EPT memory types (`ept.rs`, from Intel SDM Table 28-6). -/
inductive EptMemoryType where
  | Uncacheable
  | WriteCombining
  | WriteThrough
  | WriteProtected
  | WriteBack
deriving DecidableEq, Repr

/-- Numeric value of an EPT memory type (`ept.rs` discriminants). -/
def EptMemoryType.toNat : EptMemoryType → Nat
  | .Uncacheable => 0
  | .WriteCombining => 1
  | .WriteThrough => 4
  | .WriteProtected => 5
  | .WriteBack => 6

/-- EPT permission and memory-type flags (`EptFlags` in `ept.rs`). -/
structure EptFlags where
  read : Bool
  write : Bool
  execute : Bool
  memory_type : EptMemoryType
  ignore_pat : Bool
deriving DecidableEq, Repr

/-- `EptFlags::new` (`ept.rs`): given permissions, write-back memory type,
PAT honoured. -/
def EptFlags.new (read write execute : Bool) : EptFlags :=
  { read := read, write := write, execute := execute
    memory_type := .WriteBack, ignore_pat := false }

/-- `EptFlags::read_write_execute` (`ept.rs`). -/
def EptFlags.read_write_execute : EptFlags :=
  EptFlags.new true true true

/-- `EptFlags::to_ept_entry` (`ept.rs`): bits 0-2 are R/W/X, bits 3-5 the
memory type, bit 6 ignore-PAT. -/
def EptFlags.to_ept_entry (f : EptFlags) : Nat :=
  (if f.read then 1 else 0) |||
  (if f.write then 2 else 0) |||
  (if f.execute then 4 else 0) |||
  (f.memory_type.toNat <<< 3) |||
  (if f.ignore_pat then 64 else 0)

/-- `EptEntry::is_present` (`ept.rs`): any of the R/W/X bits set. -/
def EptEntry.is_present (e : Nat) : Bool :=
  decide (e &&& 0b111 ≠ 0)

/-- `EptEntry::address` (`ept.rs`): bits 12-51 hold the physical address. -/
def EptEntry.address (e : Nat) : Nat :=
  e &&& 0x000FFFFFFFFFF000

/-- `EptEntry::set_address` (`ept.rs`): clear bits 0-51 (keeping the
reserved top bits), then install the address bits and the flag bits. -/
def EptEntry.set_address (e addr flagBits : Nat) : Nat :=
  (e &&& 0xFFF0000000000000) ||| (addr &&& 0x000FFFFFFFFFF000) ||| flagBits

/-- The machine state seen by the EPT mapper: page-table memory (frame base
and entry index to entry value) and the frame allocator's free list. -/
structure Machine where
  mem : Nat → Nat → Nat
  free : List Nat

/-- `memory::allocate_frame`: pop the next free frame, `none` when
exhausted. -/
def allocate_frame (m : Machine) : Option (Nat × Machine) :=
  match m.free with
  | [] => none
  | f :: rest => some (f, { m with free := rest })

/-- Zero a freshly allocated table frame (the `write_bytes` call in
`ept.rs`). -/
def zeroFrame (m : Machine) (b : Nat) : Machine :=
  { m with mem := fun b' i' => if b' = b then 0 else m.mem b' i' }

/-- Write one page-table entry. -/
def writeEntry (m : Machine) (b i v : Nat) : Machine :=
  { m with mem := fun b' i' => if b' = b ∧ i' = i then v else m.mem b' i' }

/-- The 9-bit table index taken from `gpa` at a given bit position
(`(gpa_val >> shift) & 0x1FF` in `ept.rs`). -/
def eptIndex (gpa shift : Nat) : Nat :=
  (gpa >>> shift) &&& 0x1FF

/-- `EptMapper::get_or_create_table` (`ept.rs`): follow a present entry;
otherwise allocate a frame (`OutOfMemory` on exhaustion), zero it, and
install an intermediate entry with read+write+execute permission. -/
def EptMapper.get_or_create_table (m : Machine) (b i : Nat) :
    Except HypervisorError (Nat × Machine) :=
  if EptEntry.is_present (m.mem b i) then
    .ok (EptEntry.address (m.mem b i), m)
  else
    match allocate_frame m with
    | none => .error .OutOfMemory
    | some (f, m1) =>
      let m2 := zeroFrame m1 f
      let m3 := writeEntry m2 b i
        (EptEntry.set_address (m2.mem b i) f EptFlags.read_write_execute.to_ept_entry)
      .ok (f, m3)

/-- `EptMapper::map` (`ept.rs`): derive the four indices from bits
39/30/21/12 of `gpa`, walk the PML4 → PDPT → PD levels through
`get_or_create_table`, then overwrite the leaf PT entry with `hpa` and the
caller's flags.  Mutations made before a mid-walk failure are kept. -/
def EptMapper.map (m : Machine) (root gpa hpa : Nat) (flags : EptFlags) :
    Except HypervisorError Unit × Machine :=
  let pml4_index := eptIndex gpa 39
  let pdpt_index := eptIndex gpa 30
  let pd_index := eptIndex gpa 21
  let pt_index := eptIndex gpa 12
  match EptMapper.get_or_create_table m root pml4_index with
  | .error e => (.error e, m)
  | .ok (pdpt, m1) =>
    match EptMapper.get_or_create_table m1 pdpt pdpt_index with
    | .error e => (.error e, m1)
    | .ok (pd, m2) =>
      match EptMapper.get_or_create_table m2 pd pd_index with
      | .error e => (.error e, m2)
      | .ok (pt, m3) =>
        (.ok (),
          writeEntry m3 pt pt_index
            (EptEntry.set_address (m3.mem pt pt_index) hpa flags.to_ept_entry))

/-- `EptMapper::unmap` (`ept.rs`): walk the four levels read-only,
returning success immediately if an intermediate entry is absent; at the
leaf, clear the entry to zero. -/
def EptMapper.unmap (m : Machine) (root gpa : Nat) :
    Except HypervisorError Unit × Machine :=
  let pml4_index := eptIndex gpa 39
  let pdpt_index := eptIndex gpa 30
  let pd_index := eptIndex gpa 21
  let pt_index := eptIndex gpa 12
  if ¬ EptEntry.is_present (m.mem root pml4_index) then
    (.ok (), m)
  else
    let pdpt := EptEntry.address (m.mem root pml4_index)
    if ¬ EptEntry.is_present (m.mem pdpt pdpt_index) then
      (.ok (), m)
    else
      let pd := EptEntry.address (m.mem pdpt pdpt_index)
      if ¬ EptEntry.is_present (m.mem pd pd_index) then
        (.ok (), m)
      else
        let pt := EptEntry.address (m.mem pd pd_index)
        (.ok (), writeEntry m pt pt_index 0)

/-- Modelled from the spec: the translation lookup of §4.1/§8 ("a
translation lookup at `gpa`"), which is not present in `ept.rs`.  It walks
the same four levels from the root; an absent entry at any level means
"not mapped" (`none`), and at the leaf it returns the mapped host physical
address taken from the entry's address bits. -/
def translate (m : Machine) (root gpa : Nat) : Option Nat :=
  let pml4_index := eptIndex gpa 39
  let pdpt_index := eptIndex gpa 30
  let pd_index := eptIndex gpa 21
  let pt_index := eptIndex gpa 12
  if ¬ EptEntry.is_present (m.mem root pml4_index) then none
  else
    let pdpt := EptEntry.address (m.mem root pml4_index)
    if ¬ EptEntry.is_present (m.mem pdpt pdpt_index) then none
    else
      let pd := EptEntry.address (m.mem pdpt pdpt_index)
      if ¬ EptEntry.is_present (m.mem pd pd_index) then none
      else
        let pt := EptEntry.address (m.mem pd pd_index)
        if ¬ EptEntry.is_present (m.mem pt pt_index) then none
        else some (EptEntry.address (m.mem pt pt_index))

/-- The table frames on the walk path of `gpa`, as far as the present
entries reach: the root, then up to three intermediate table frames. -/
def pathFrames (m : Machine) (root gpa : Nat) : List Nat :=
  root ::
    (if EptEntry.is_present (m.mem root (eptIndex gpa 39)) then
      let p1 := EptEntry.address (m.mem root (eptIndex gpa 39))
      p1 ::
        (if EptEntry.is_present (m.mem p1 (eptIndex gpa 30)) then
          let p2 := EptEntry.address (m.mem p1 (eptIndex gpa 30))
          p2 ::
            (if EptEntry.is_present (m.mem p2 (eptIndex gpa 21)) then
              [EptEntry.address (m.mem p2 (eptIndex gpa 21))]
            else [])
        else [])
    else [])

/-! ## Concrete instances used by counterexamples and witnesses -/

/-- A concrete machine for counterexamples and witnesses: all page-table
memory zeroed, three free frames. -/
def sampleMachine : Machine :=
  ⟨fun _ _ => 0, [0x2000, 0x3000, 0x4000]⟩

/-- A concrete root table frame. -/
def sampleRoot : Nat := 0x1000

/-- The sample machine after mapping guest page `0x5000` to host frame
`0x7000` read-write. -/
def sampleMapped : Machine :=
  (EptMapper.map sampleMachine sampleRoot 0x5000 0x7000 (EptFlags.new true true false)).2

/-- A machine whose allocator has exactly one free frame. -/
def oomMachine : Machine :=
  ⟨fun _ _ => 0, [0x2000]⟩

/-- A region whose `gpa + size` wraps around the 64-bit range. -/
def wrapRegionA : MemoryRegion :=
  ⟨2 ^ 63, 0, 2 ^ 63 + 4096, 0⟩

/-- A region inside the mathematical span of `wrapRegionA`. -/
def wrapRegionB : MemoryRegion :=
  ⟨2 ^ 63 + 4096, 0, 4096, 0⟩

/-- A concrete VCPU in `Stopped` state. -/
def sampleVcpu : Vcpu :=
  Vcpu.new 0 0 ⟨0, none⟩

/-- A hardware configuration on which everything succeeds (VMX present,
enabled in firmware, VMXON succeeds). -/
def goodHw : Hw :=
  ⟨true, false, true, false, .ok (), .ok ()⟩

/-- A hardware configuration whose VMXON step fails. -/
def badHw : Hw :=
  ⟨true, false, true, false, .error .InitializationFailed, .ok ()⟩

/-- A hardware configuration with no virtualization extensions at all. -/
def noHw : Hw :=
  ⟨false, false, false, false, .ok (), .ok ()⟩

/-- A concrete recorded region. -/
def sampleRegion : MemoryRegion :=
  ⟨0, 0x7000, 4096, 3⟩

/-! ## Bit-level facts about EPT entries -/

theorem testBit_addrMask (i : Nat) :
    Nat.testBit 0x000FFFFFFFFFF000 i = (decide (12 ≤ i) && decide (i < 52)) := by
  have h : (0x000FFFFFFFFFF000 : Nat) = (2 ^ 40 - 1) <<< 12 := by
    rw [Nat.shiftLeft_eq]
    norm_num
  rw [h, Nat.testBit_shiftLeft, Nat.testBit_two_pow_sub_one]
  by_cases h12 : 12 ≤ i
  · have : (i - 12 < 40) = (i < 52) := by
      apply propext; omega
    simp [ge_iff_le, h12, this]
  · simp [ge_iff_le, h12]

theorem testBit_keepMask (i : Nat) :
    Nat.testBit 0xFFF0000000000000 i = (decide (52 ≤ i) && decide (i < 64)) := by
  have h : (0xFFF0000000000000 : Nat) = (2 ^ 12 - 1) <<< 52 := by
    rw [Nat.shiftLeft_eq]
    norm_num
  rw [h, Nat.testBit_shiftLeft, Nat.testBit_two_pow_sub_one]
  by_cases h52 : 52 ≤ i
  · have : (i - 52 < 12) = (i < 64) := by
      apply propext; omega
    simp [ge_iff_le, h52, this]
  · simp [ge_iff_le, h52]

theorem testBit_seven (i : Nat) :
    Nat.testBit 7 i = decide (i < 3) := by
  have h : (7 : Nat) = 2 ^ 3 - 1 := by norm_num
  rw [h, Nat.testBit_two_pow_sub_one]

/-- A frame-aligned address below `2 ^ 52` is untouched by the EPT address
mask. -/
theorem aligned_land_addrMask {a : Nat} (h4096 : a % 4096 = 0) (hlt : a < 2 ^ 52) :
    a &&& 0x000FFFFFFFFFF000 = a := by
  have hdvd : 4096 ∣ a := Nat.dvd_of_mod_eq_zero h4096
  have ha : a = (a / 4096) <<< 12 := by
    rw [Nat.shiftLeft_eq]
    norm_num
    exact (Nat.div_mul_cancel hdvd).symm
  apply Nat.eq_of_testBit_eq
  intro i
  rw [Nat.testBit_land, testBit_addrMask]
  by_cases h12 : 12 ≤ i
  · by_cases h52 : i < 52
    · simp [h12, h52]
    · have : a.testBit i = false := by
        apply Nat.testBit_lt_two_pow
        calc a < 2 ^ 52 := hlt
        _ ≤ 2 ^ i := Nat.pow_le_pow_right (by norm_num) (by omega)
      simp [this]
  · have : a.testBit i = false := by
      rw [ha, Nat.testBit_shiftLeft]
      simp [ge_iff_le, h12]
    simp [this]

/-- The address field of a freshly written entry is the installed address,
provided that address is in the maskable range and the flag bits stay below
bit 12. -/
theorem set_address_address {e addr fl : Nat} (hfl : fl < 4096)
    (haddr : addr &&& 0x000FFFFFFFFFF000 = addr) :
    EptEntry.address (EptEntry.set_address e addr fl) = addr := by
  unfold EptEntry.address EptEntry.set_address
  apply Nat.eq_of_testBit_eq
  intro i
  rw [Nat.testBit_land, Nat.testBit_lor, Nat.testBit_lor, Nat.testBit_land,
    Nat.testBit_land, testBit_addrMask, testBit_keepMask]
  have haddr' : addr.testBit i = (addr.testBit i && (decide (12 ≤ i) && decide (i < 52))) := by
    conv_lhs => rw [← haddr]
    rw [Nat.testBit_land, testBit_addrMask]
  by_cases h12 : 12 ≤ i
  · by_cases h52 : i < 52
    · have hfl' : fl.testBit i = false := by
        apply Nat.testBit_lt_two_pow
        calc fl < 4096 := hfl
        _ = 2 ^ 12 := by norm_num
        _ ≤ 2 ^ i := Nat.pow_le_pow_right (by norm_num) h12
      simp [h12, h52, hfl']
    · rw [haddr']
      simp [h12, h52]
  · rw [haddr']
    simp [h12]

/-- The low three (present) bits of a freshly written entry are exactly the
low three bits of its flag argument, provided the address carries no bits
below 12. -/
theorem set_address_low {e addr fl : Nat}
    (haddr : addr &&& 0x000FFFFFFFFFF000 = addr) :
    (EptEntry.set_address e addr fl) &&& 7 = fl &&& 7 := by
  unfold EptEntry.set_address
  apply Nat.eq_of_testBit_eq
  intro i
  rw [Nat.testBit_land, Nat.testBit_land, Nat.testBit_lor, Nat.testBit_lor,
    Nat.testBit_land, Nat.testBit_land, testBit_keepMask, testBit_seven]
  have haddr' : addr.testBit i = (addr.testBit i && (decide (12 ≤ i) && decide (i < 52))) := by
    conv_lhs => rw [← haddr]
    rw [Nat.testBit_land, testBit_addrMask]
  by_cases h3 : i < 3
  · rw [haddr']
    have h52 : ¬ 52 ≤ i := by omega
    have h12 : ¬ 12 ≤ i := by omega
    simp [h3, h52, h12]
  · simp [h3]

/-- Presence of a freshly written entry is decided by the low three bits of
its flag argument. -/
theorem is_present_set_address {e addr fl : Nat}
    (haddr : addr &&& 0x000FFFFFFFFFF000 = addr) :
    EptEntry.is_present (EptEntry.set_address e addr fl) = decide (fl &&& 7 ≠ 0) := by
  unfold EptEntry.is_present
  rw [show (0b111 : Nat) = 7 from rfl, set_address_low haddr]

/-- The flag bits of any `EptFlags` stay below bit 12. -/
theorem to_ept_entry_lt (f : EptFlags) : f.to_ept_entry < 4096 := by
  rcases f with ⟨r, w, x, mt, ip⟩
  cases r <;> cases w <;> cases x <;> cases mt <;> cases ip <;> decide

/-- The low three bits of encoded flags are nonzero exactly when at least
one of read/write/execute is granted. -/
theorem to_ept_entry_low (f : EptFlags) :
    decide (f.to_ept_entry &&& 7 ≠ 0) = (f.read || f.write || f.execute) := by
  rcases f with ⟨r, w, x, mt, ip⟩
  cases r <;> cases w <;> cases x <;> cases mt <;> cases ip <;> decide

/-- The encoded read-write-execute intermediate flags. -/
theorem rwx_to_ept_entry : EptFlags.read_write_execute.to_ept_entry = 55 := by
  decide

/-! ## Machine-state read/write facts -/

theorem Machine.ext' {m1 m2 : Machine}
    (hmem : ∀ b i, m1.mem b i = m2.mem b i) (hfree : m1.free = m2.free) :
    m1 = m2 := by
  cases m1
  cases m2
  simp_all
  funext b i
  exact hmem b i

theorem writeEntry_mem_same (m : Machine) (b i v : Nat) :
    (writeEntry m b i v).mem b i = v := by
  simp [writeEntry]

theorem writeEntry_mem_ne_frame (m : Machine) {b b' : Nat} (i i' v : Nat)
    (h : b' ≠ b) : (writeEntry m b i v).mem b' i' = m.mem b' i' := by
  simp [writeEntry, h]

theorem writeEntry_mem_ne_idx (m : Machine) (b : Nat) {i : Nat} (b' : Nat)
    {i' : Nat} (v : Nat) (h : i' ≠ i) :
    (writeEntry m b i v).mem b' i' = m.mem b' i' := by
  simp [writeEntry, h]

theorem writeEntry_free (m : Machine) (b i v : Nat) :
    (writeEntry m b i v).free = m.free := rfl

theorem writeEntry_of_eq (m : Machine) {b i v : Nat} (h : m.mem b i = v) :
    writeEntry m b i v = m := by
  apply Machine.ext'
  · intro b' i'
    simp only [writeEntry]
    split
    · rename_i hc
      rw [hc.1, hc.2]
      exact h.symm
    · rfl
  · rfl

theorem zeroFrame_mem_same (m : Machine) (b i : Nat) :
    (zeroFrame m b).mem b i = 0 := by
  simp [zeroFrame]

theorem zeroFrame_mem_ne (m : Machine) {b b' : Nat} (i : Nat) (h : b' ≠ b) :
    (zeroFrame m b).mem b' i = m.mem b' i := by
  simp [zeroFrame, h]

theorem zeroFrame_free (m : Machine) (b : Nat) :
    (zeroFrame m b).free = m.free := rfl

theorem Machine.mk_mem (f : Nat → Nat → Nat) (l : List Nat) :
    (Machine.mk f l).mem = f := rfl

theorem Machine.mk_free (f : Nat → Nat → Nat) (l : List Nat) :
    (Machine.mk f l).free = l := rfl

theorem is_present_zero : EptEntry.is_present 0 = false := by decide

/-- Intermediate entries written during a walk are present. -/
theorem intermediate_entry_present {e addr : Nat} (h4096 : addr % 4096 = 0)
    (hlt : addr < 2 ^ 52) :
    EptEntry.is_present
      (EptEntry.set_address e addr EptFlags.read_write_execute.to_ept_entry) = true := by
  rw [is_present_set_address (aligned_land_addrMask h4096 hlt), rwx_to_ept_entry]
  decide

/-- Intermediate entries written during a walk point at the allocated
frame. -/
theorem intermediate_entry_address {e addr : Nat} (h4096 : addr % 4096 = 0)
    (hlt : addr < 2 ^ 52) :
    EptEntry.address
      (EptEntry.set_address e addr EptFlags.read_write_execute.to_ept_entry) = addr :=
  set_address_address (to_ept_entry_lt _) (aligned_land_addrMask h4096 hlt)

/-- The leaf entry written by `map` points at the mapped host frame. -/
theorem leaf_entry_address {e hpa : Nat} (fl : EptFlags) (h4096 : hpa % 4096 = 0)
    (hlt : hpa < 2 ^ 52) :
    EptEntry.address (EptEntry.set_address e hpa fl.to_ept_entry) = hpa :=
  set_address_address (to_ept_entry_lt fl) (aligned_land_addrMask h4096 hlt)

/-- The leaf entry written by `map` is present exactly when the flags grant
some permission. -/
theorem leaf_entry_present {e hpa : Nat} (fl : EptFlags) (h4096 : hpa % 4096 = 0)
    (hlt : hpa < 2 ^ 52) :
    EptEntry.is_present (EptEntry.set_address e hpa fl.to_ept_entry) =
      (fl.read || fl.write || fl.execute) := by
  rw [is_present_set_address (aligned_land_addrMask h4096 hlt), to_ept_entry_low]

/-- `get_or_create_table` on a present entry follows it without touching
the state. -/
theorem gOC_present {m : Machine} {b i : Nat}
    (h : EptEntry.is_present (m.mem b i) = true) :
    EptMapper.get_or_create_table m b i = .ok (EptEntry.address (m.mem b i), m) := by
  simp [EptMapper.get_or_create_table, h]

/-- `get_or_create_table` on an absent entry with an exhausted allocator
fails with `OutOfMemory`. -/
theorem gOC_absent_nil {m : Machine} {b i : Nat}
    (h : EptEntry.is_present (m.mem b i) = false) (hf : m.free = []) :
    EptMapper.get_or_create_table m b i = .error .OutOfMemory := by
  simp [EptMapper.get_or_create_table, h, allocate_frame, hf]

/-- `get_or_create_table` on an absent entry allocates the next free frame,
zeroes it, and installs a read-write-execute intermediate entry. -/
theorem gOC_absent_cons {m : Machine} {b i f : Nat} {rest : List Nat}
    (h : EptEntry.is_present (m.mem b i) = false) (hf : m.free = f :: rest) :
    EptMapper.get_or_create_table m b i =
      .ok (f, writeEntry (zeroFrame ⟨m.mem, rest⟩ f) b i
        (EptEntry.set_address ((zeroFrame (⟨m.mem, rest⟩ : Machine) f).mem b i) f
          EptFlags.read_write_execute.to_ept_entry)) := by
  simp [EptMapper.get_or_create_table, h, allocate_frame, hf, zeroFrame]

/-- After a successful `map` from a state whose walk path for `gpa` has
pairwise-distinct table frames and whose allocator hands out distinct
frames disjoint from that path, the four-level chain for `gpa` reads back:
the root entry points at a table whose entry points at a table whose entry
points at the leaf table holding `hpa` with the caller's flags, and the
leaf table frame differs from the three frames above it. -/
theorem ept_map_chain
    {m : Machine} {root gpa hpa : Nat} {flags : EptFlags} {M : Machine}
    (hnd : (pathFrames m root gpa).Nodup)
    (hfr : m.free.Nodup)
    (hdisj : ∀ f ∈ m.free, f % 4096 = 0 ∧ f < 2 ^ 52 ∧ f ∉ pathFrames m root gpa)
    (hpa4096 : hpa % 4096 = 0) (hpalt : hpa < 2 ^ 52)
    (hmap : EptMapper.map m root gpa hpa flags = (.ok (), M)) :
    ∃ p1 p2 p3,
      p3 ≠ root ∧ p3 ≠ p1 ∧ p3 ≠ p2 ∧
      EptEntry.is_present (M.mem root (eptIndex gpa 39)) = true ∧
      EptEntry.address (M.mem root (eptIndex gpa 39)) = p1 ∧
      EptEntry.is_present (M.mem p1 (eptIndex gpa 30)) = true ∧
      EptEntry.address (M.mem p1 (eptIndex gpa 30)) = p2 ∧
      EptEntry.is_present (M.mem p2 (eptIndex gpa 21)) = true ∧
      EptEntry.address (M.mem p2 (eptIndex gpa 21)) = p3 ∧
      EptEntry.address (M.mem p3 (eptIndex gpa 12)) = hpa ∧
      EptEntry.is_present (M.mem p3 (eptIndex gpa 12)) =
        (flags.read || flags.write || flags.execute) := by
  by_cases hP1 : EptEntry.is_present (m.mem root (eptIndex gpa 39)) = true
  · -- level 1 present
    set p1 := EptEntry.address (m.mem root (eptIndex gpa 39)) with hp1
    by_cases hP2 : EptEntry.is_present (m.mem p1 (eptIndex gpa 30)) = true
    · -- level 2 present
      set p2 := EptEntry.address (m.mem p1 (eptIndex gpa 30)) with hp2
      by_cases hP3 : EptEntry.is_present (m.mem p2 (eptIndex gpa 21)) = true
      · -- all intermediate levels present: only the leaf is written
        set p3 := EptEntry.address (m.mem p2 (eptIndex gpa 21)) with hp3
        have hpf : pathFrames m root gpa = [root, p1, p2, p3] := by
          simp [pathFrames, hP1, hP2, hP3]
        rw [hpf] at hnd
        simp only [List.nodup_cons, List.mem_cons, List.mem_singleton,
          List.not_mem_nil, or_false, List.nodup_nil, and_true, not_or] at hnd
        obtain ⟨⟨hr1, hr2, hr3⟩, ⟨h12, h13⟩, h23, -⟩ := hnd
        simp only [EptMapper.map, gOC_present hP1, ← hp1, gOC_present hP2, ← hp2,
          gOC_present hP3, ← hp3, Prod.mk.injEq, true_and] at hmap
        subst hmap
        refine ⟨p1, p2, p3, fun h => hr3 h.symm, fun h => h13 h.symm,
          fun h => h23 h.symm, ?_, ?_, ?_, ?_, ?_, ?_, ?_, ?_⟩
        · rw [writeEntry_mem_ne_frame _ _ _ _ hr3]
          exact hP1
        · rw [writeEntry_mem_ne_frame _ _ _ _ hr3]
        · rw [writeEntry_mem_ne_frame _ _ _ _ h13]
          exact hP2
        · rw [writeEntry_mem_ne_frame _ _ _ _ h13]
        · rw [writeEntry_mem_ne_frame _ _ _ _ h23]
          exact hP3
        · rw [writeEntry_mem_ne_frame _ _ _ _ h23]
        · rw [writeEntry_mem_same]
          exact leaf_entry_address flags hpa4096 hpalt
        · rw [writeEntry_mem_same]
          exact leaf_entry_present flags hpa4096 hpalt
      · -- first two levels present, third absent: allocate the leaf table
        have hP3' : EptEntry.is_present (m.mem p2 (eptIndex gpa 21)) = false :=
          Bool.not_eq_true _ |>.mp hP3
        have hpf : pathFrames m root gpa = [root, p1, p2] := by
          simp [pathFrames, hP1, hP2, hP3']
        rw [hpf] at hnd
        simp only [List.nodup_cons, List.mem_cons, List.mem_singleton,
          List.not_mem_nil, or_false, List.nodup_nil, and_true, not_or] at hnd
        obtain ⟨⟨hr1, hr2⟩, h12, -⟩ := hnd
        cases hfree : m.free with
        | nil =>
          simp only [EptMapper.map, gOC_present hP1, ← hp1, gOC_present hP2, ← hp2,
            gOC_absent_nil hP3' hfree] at hmap
          simp at hmap
        | cons f rest =>
          have hfmem : f ∈ m.free := by
            rw [hfree]; exact List.mem_cons_self _ _
          obtain ⟨hf4096, hflt, hfnotin⟩ := hdisj f hfmem
          rw [hpf] at hfnotin
          simp only [List.mem_cons, List.mem_singleton, List.not_mem_nil,
            or_false, not_or] at hfnotin
          obtain ⟨hfr0, hf1, hf2⟩ := hfnotin
          simp only [EptMapper.map, gOC_present hP1, ← hp1, gOC_present hP2, ← hp2,
            gOC_absent_cons hP3' hfree, Prod.mk.injEq, true_and] at hmap
          subst hmap
          refine ⟨p1, p2, f, hfr0, hf1, hf2, ?_, ?_, ?_, ?_, ?_, ?_, ?_, ?_⟩
          · rw [writeEntry_mem_ne_frame _ _ _ _ (Ne.symm hfr0),
              writeEntry_mem_ne_frame _ _ _ _ hr2,
              zeroFrame_mem_ne _ _ (Ne.symm hfr0)]
            exact hP1
          · rw [writeEntry_mem_ne_frame _ _ _ _ (Ne.symm hfr0),
              writeEntry_mem_ne_frame _ _ _ _ hr2,
              zeroFrame_mem_ne _ _ (Ne.symm hfr0)]
          · rw [writeEntry_mem_ne_frame _ _ _ _ (Ne.symm hf1),
              writeEntry_mem_ne_frame _ _ _ _ h12,
              zeroFrame_mem_ne _ _ (Ne.symm hf1)]
            exact hP2
          · rw [writeEntry_mem_ne_frame _ _ _ _ (Ne.symm hf1),
              writeEntry_mem_ne_frame _ _ _ _ h12,
              zeroFrame_mem_ne _ _ (Ne.symm hf1)]
          · rw [writeEntry_mem_ne_frame _ _ _ _ (Ne.symm hf2),
              writeEntry_mem_same]
            exact intermediate_entry_present hf4096 hflt
          · rw [writeEntry_mem_ne_frame _ _ _ _ (Ne.symm hf2),
              writeEntry_mem_same]
            exact intermediate_entry_address hf4096 hflt
          · rw [writeEntry_mem_same]
            exact leaf_entry_address flags hpa4096 hpalt
          · rw [writeEntry_mem_same]
            exact leaf_entry_present flags hpa4096 hpalt
    · -- first level present, second absent: allocate the PD and PT tables
      have hP2' : EptEntry.is_present (m.mem p1 (eptIndex gpa 30)) = false :=
        Bool.not_eq_true _ |>.mp hP2
      have hpf : pathFrames m root gpa = [root, p1] := by
        simp [pathFrames, hP1, hP2']
      rw [hpf] at hnd
      simp only [List.nodup_cons, List.mem_cons, List.mem_singleton,
        List.not_mem_nil, or_false, List.nodup_nil, and_true, not_or] at hnd
      obtain ⟨hr1, -⟩ := hnd
      cases hfree : m.free with
      | nil =>
        simp only [EptMapper.map, gOC_present hP1, ← hp1,
          gOC_absent_nil hP2' hfree] at hmap
        simp at hmap
      | cons f1 rest1 =>
        have hf1mem : f1 ∈ m.free := by
          rw [hfree]; exact List.mem_cons_self _ _
        obtain ⟨hf14096, hf1lt, hf1notin⟩ := hdisj f1 hf1mem
        rw [hpf] at hf1notin
        simp only [List.mem_cons, List.mem_singleton, List.not_mem_nil,
          or_false, not_or] at hf1notin
        obtain ⟨hf1r, hf1p1⟩ := hf1notin
        cases hrest1 : rest1 with
        | nil =>
          subst hrest1
          simp only [EptMapper.map, gOC_present hP1, ← hp1,
            gOC_absent_cons hP2' hfree] at hmap
          rw [gOC_absent_nil
            (show EptEntry.is_present ((writeEntry (zeroFrame ⟨m.mem, []⟩ f1) p1
                (eptIndex gpa 30)
                (EptEntry.set_address
                  ((zeroFrame (⟨m.mem, []⟩ : Machine) f1).mem p1 (eptIndex gpa 30)) f1
                  EptFlags.read_write_execute.to_ept_entry)).mem f1 (eptIndex gpa 21)) =
              false by
              rw [writeEntry_mem_ne_frame _ _ _ _ hf1p1, zeroFrame_mem_same]
              exact is_present_zero)
            rfl] at hmap
          simp at hmap
        | cons f2 rest2 =>
          subst hrest1
          have hf2mem : f2 ∈ m.free := by
            rw [hfree]; exact List.mem_cons_of_mem _ (List.mem_cons_self _ _)
          obtain ⟨hf24096, hf2lt, hf2notin⟩ := hdisj f2 hf2mem
          rw [hpf] at hf2notin
          simp only [List.mem_cons, List.mem_singleton, List.not_mem_nil,
            or_false, not_or] at hf2notin
          obtain ⟨hf2r, hf2p1⟩ := hf2notin
          rw [hfree] at hfr
          simp only [List.nodup_cons, List.mem_cons, not_or] at hfr
          have hf12 : f1 ≠ f2 := hfr.1.1
          simp only [EptMapper.map, gOC_present hP1, ← hp1,
            gOC_absent_cons hP2' hfree] at hmap
          rw [gOC_absent_cons
            (show EptEntry.is_present ((writeEntry (zeroFrame ⟨m.mem, f2 :: rest2⟩ f1) p1
                (eptIndex gpa 30)
                (EptEntry.set_address
                  ((zeroFrame (⟨m.mem, f2 :: rest2⟩ : Machine) f1).mem p1
                    (eptIndex gpa 30)) f1
                  EptFlags.read_write_execute.to_ept_entry)).mem f1 (eptIndex gpa 21)) =
              false by
              rw [writeEntry_mem_ne_frame _ _ _ _ hf1p1, zeroFrame_mem_same]
              exact is_present_zero)
            rfl] at hmap
          simp only [Prod.mk.injEq, true_and] at hmap
          subst hmap
          refine ⟨p1, f1, f2, hf2r, hf2p1, fun h => hf12 h.symm, ?_, ?_, ?_, ?_, ?_, ?_,
            ?_, ?_⟩
          · rw [writeEntry_mem_ne_frame _ _ _ _ (Ne.symm hf2r),
              writeEntry_mem_ne_frame _ _ _ _ (Ne.symm hf1r),
              zeroFrame_mem_ne _ _ (Ne.symm hf2r), Machine.mk_mem,
              writeEntry_mem_ne_frame _ _ _ _ hr1,
              zeroFrame_mem_ne _ _ (Ne.symm hf1r), Machine.mk_mem]
            exact hP1
          · rw [writeEntry_mem_ne_frame _ _ _ _ (Ne.symm hf2r),
              writeEntry_mem_ne_frame _ _ _ _ (Ne.symm hf1r),
              zeroFrame_mem_ne _ _ (Ne.symm hf2r), Machine.mk_mem,
              writeEntry_mem_ne_frame _ _ _ _ hr1,
              zeroFrame_mem_ne _ _ (Ne.symm hf1r), Machine.mk_mem]
          · rw [writeEntry_mem_ne_frame _ _ _ _ (Ne.symm hf2p1),
              writeEntry_mem_ne_frame _ _ _ _ (Ne.symm hf1p1),
              zeroFrame_mem_ne _ _ (Ne.symm hf2p1), Machine.mk_mem,
              writeEntry_mem_same]
            exact intermediate_entry_present hf14096 hf1lt
          · rw [writeEntry_mem_ne_frame _ _ _ _ (Ne.symm hf2p1),
              writeEntry_mem_ne_frame _ _ _ _ (Ne.symm hf1p1),
              zeroFrame_mem_ne _ _ (Ne.symm hf2p1), Machine.mk_mem,
              writeEntry_mem_same]
            exact intermediate_entry_address hf14096 hf1lt
          · rw [writeEntry_mem_ne_frame _ _ _ _ hf12,
              writeEntry_mem_same]
            exact intermediate_entry_present hf24096 hf2lt
          · rw [writeEntry_mem_ne_frame _ _ _ _ hf12,
              writeEntry_mem_same]
            exact intermediate_entry_address hf24096 hf2lt
          · rw [writeEntry_mem_same]
            exact leaf_entry_address flags hpa4096 hpalt
          · rw [writeEntry_mem_same]
            exact leaf_entry_present flags hpa4096 hpalt
  · -- first level absent: allocate the PDPT, PD and PT tables
    have hP1' : EptEntry.is_present (m.mem root (eptIndex gpa 39)) = false :=
      Bool.not_eq_true _ |>.mp hP1
    have hpf : pathFrames m root gpa = [root] := by
      simp [pathFrames, hP1']
    cases hfree : m.free with
    | nil =>
      simp only [EptMapper.map, gOC_absent_nil hP1' hfree] at hmap
      simp at hmap
    | cons f1 rest1 =>
      have hf1mem : f1 ∈ m.free := by
        rw [hfree]; exact List.mem_cons_self _ _
      obtain ⟨hf14096, hf1lt, hf1notin⟩ := hdisj f1 hf1mem
      rw [hpf] at hf1notin
      simp only [List.mem_singleton] at hf1notin
      have hf1r : f1 ≠ root := hf1notin
      cases hrest1 : rest1 with
      | nil =>
        subst hrest1
        simp only [EptMapper.map, gOC_absent_cons hP1' hfree, Machine.mk_mem,
          zeroFrame_mem_ne _ _ (Ne.symm hf1r)] at hmap
        rw [gOC_absent_nil
          (show EptEntry.is_present ((writeEntry (zeroFrame ⟨m.mem, []⟩ f1) root
              (eptIndex gpa 39)
              (EptEntry.set_address (m.mem root (eptIndex gpa 39)) f1
                EptFlags.read_write_execute.to_ept_entry)).mem f1 (eptIndex gpa 30)) =
            false by
            rw [writeEntry_mem_ne_frame _ _ _ _ hf1r, zeroFrame_mem_same]
            exact is_present_zero)
          rfl] at hmap
        simp at hmap
      | cons f2 rest2 =>
        subst hrest1
        have hf2mem : f2 ∈ m.free := by
          rw [hfree]; exact List.mem_cons_of_mem _ (List.mem_cons_self _ _)
        obtain ⟨hf24096, hf2lt, hf2notin⟩ := hdisj f2 hf2mem
        rw [hpf] at hf2notin
        simp only [List.mem_singleton] at hf2notin
        have hf2r : f2 ≠ root := hf2notin
        rw [hfree] at hfr
        simp only [List.nodup_cons, List.mem_cons, not_or] at hfr
        have hf12 : f1 ≠ f2 := hfr.1.1
        cases hrest2 : rest2 with
        | nil =>
          subst hrest2
          simp only [EptMapper.map, gOC_absent_cons hP1' hfree, Machine.mk_mem,
            zeroFrame_mem_ne _ _ (Ne.symm hf1r)] at hmap
          rw [gOC_absent_cons
            (show EptEntry.is_present ((writeEntry (zeroFrame ⟨m.mem, [f2]⟩ f1) root
                (eptIndex gpa 39)
                (EptEntry.set_address (m.mem root (eptIndex gpa 39)) f1
                  EptFlags.read_write_execute.to_ept_entry)).mem f1 (eptIndex gpa 30)) =
              false by
              rw [writeEntry_mem_ne_frame _ _ _ _ hf1r, zeroFrame_mem_same]
              exact is_present_zero)
            rfl] at hmap
          simp only [Machine.mk_mem, zeroFrame_mem_ne _ _ hf12,
            writeEntry_mem_ne_frame _ _ _ _ hf1r, zeroFrame_mem_same] at hmap
          rw [gOC_absent_nil
            (show EptEntry.is_present ((writeEntry
                (zeroFrame ⟨(writeEntry (zeroFrame ⟨m.mem, [f2]⟩ f1) root
                  (eptIndex gpa 39)
                  (EptEntry.set_address (m.mem root (eptIndex gpa 39)) f1
                    EptFlags.read_write_execute.to_ept_entry)).mem, []⟩ f2) f1
                (eptIndex gpa 30)
                (EptEntry.set_address 0 f2
                  EptFlags.read_write_execute.to_ept_entry)).mem f2 (eptIndex gpa 21)) =
              false by
              rw [writeEntry_mem_ne_frame _ _ _ _ (Ne.symm hf12), zeroFrame_mem_same]
              exact is_present_zero)
            rfl] at hmap
          simp at hmap
        | cons f3 rest3 =>
          subst hrest2
          have hf3mem : f3 ∈ m.free := by
            rw [hfree]
            exact List.mem_cons_of_mem _ (List.mem_cons_of_mem _ (List.mem_cons_self _ _))
          obtain ⟨hf34096, hf3lt, hf3notin⟩ := hdisj f3 hf3mem
          rw [hpf] at hf3notin
          simp only [List.mem_singleton] at hf3notin
          have hf3r : f3 ≠ root := hf3notin
          have hf13 : f1 ≠ f3 := fun h => hfr.1.2 (h ▸ List.mem_cons_self _ _)
          have hf23 : f2 ≠ f3 := fun h => hfr.2.1 (h ▸ List.mem_cons_self _ _)
          simp only [EptMapper.map, gOC_absent_cons hP1' hfree, Machine.mk_mem,
            zeroFrame_mem_ne _ _ (Ne.symm hf1r)] at hmap
          rw [gOC_absent_cons
            (show EptEntry.is_present ((writeEntry (zeroFrame ⟨m.mem, f2 :: f3 :: rest3⟩ f1)
                root (eptIndex gpa 39)
                (EptEntry.set_address (m.mem root (eptIndex gpa 39)) f1
                  EptFlags.read_write_execute.to_ept_entry)).mem f1 (eptIndex gpa 30)) =
              false by
              rw [writeEntry_mem_ne_frame _ _ _ _ hf1r, zeroFrame_mem_same]
              exact is_present_zero)
            rfl] at hmap
          simp only [Machine.mk_mem, zeroFrame_mem_ne _ _ hf12,
            writeEntry_mem_ne_frame _ _ _ _ hf1r, zeroFrame_mem_same] at hmap
          rw [gOC_absent_cons
            (show EptEntry.is_present ((writeEntry
                (zeroFrame ⟨(writeEntry (zeroFrame ⟨m.mem, f2 :: f3 :: rest3⟩ f1) root
                  (eptIndex gpa 39)
                  (EptEntry.set_address (m.mem root (eptIndex gpa 39)) f1
                    EptFlags.read_write_execute.to_ept_entry)).mem, f3 :: rest3⟩ f2) f1
                (eptIndex gpa 30)
                (EptEntry.set_address 0 f2
                  EptFlags.read_write_execute.to_ept_entry)).mem f2 (eptIndex gpa 21)) =
              false by
              rw [writeEntry_mem_ne_frame _ _ _ _ (Ne.symm hf12), zeroFrame_mem_same]
              exact is_present_zero)
            rfl] at hmap
          simp only [Machine.mk_mem, zeroFrame_mem_ne _ _ hf23,
            writeEntry_mem_ne_frame _ _ _ _ (Ne.symm hf12), zeroFrame_mem_same,
            Prod.mk.injEq, true_and] at hmap
          subst hmap
          refine ⟨f1, f2, f3, hf3r, fun h => hf13 h.symm, fun h => hf23 h.symm,
            ?_, ?_, ?_, ?_, ?_, ?_, ?_, ?_⟩
          · simp only [writeEntry_mem_ne_frame _ _ _ _ (Ne.symm hf3r),
              writeEntry_mem_ne_frame _ _ _ _ (Ne.symm hf2r),
              writeEntry_mem_ne_frame _ _ _ _ (Ne.symm hf1r),
              zeroFrame_mem_ne _ _ (Ne.symm hf3r),
              zeroFrame_mem_ne _ _ (Ne.symm hf2r), Machine.mk_mem,
              writeEntry_mem_same]
            exact intermediate_entry_present hf14096 hf1lt
          · simp only [writeEntry_mem_ne_frame _ _ _ _ (Ne.symm hf3r),
              writeEntry_mem_ne_frame _ _ _ _ (Ne.symm hf2r),
              writeEntry_mem_ne_frame _ _ _ _ (Ne.symm hf1r),
              zeroFrame_mem_ne _ _ (Ne.symm hf3r),
              zeroFrame_mem_ne _ _ (Ne.symm hf2r), Machine.mk_mem,
              writeEntry_mem_same]
            exact intermediate_entry_address hf14096 hf1lt
          · simp only [writeEntry_mem_ne_frame _ _ _ _ hf13,
              writeEntry_mem_ne_frame _ _ _ _ hf12,
              zeroFrame_mem_ne _ _ hf13, Machine.mk_mem,
              writeEntry_mem_same]
            exact intermediate_entry_present hf24096 hf2lt
          · simp only [writeEntry_mem_ne_frame _ _ _ _ hf13,
              writeEntry_mem_ne_frame _ _ _ _ hf12,
              zeroFrame_mem_ne _ _ hf13, Machine.mk_mem,
              writeEntry_mem_same]
            exact intermediate_entry_address hf24096 hf2lt
          · simp only [writeEntry_mem_ne_frame _ _ _ _ hf23,
              writeEntry_mem_same]
            exact intermediate_entry_present hf34096 hf3lt
          · simp only [writeEntry_mem_ne_frame _ _ _ _ hf23,
              writeEntry_mem_same]
            exact intermediate_entry_address hf34096 hf3lt
          · rw [writeEntry_mem_same]
            exact leaf_entry_address flags hpa4096 hpalt
          · rw [writeEntry_mem_same]
            exact leaf_entry_present flags hpa4096 hpalt

/-- The translation lookup follows a fully present chain to the leaf
address. -/
theorem translate_some {M : Machine} {root gpa p1 p2 p3 hpa : Nat}
    (h1 : EptEntry.is_present (M.mem root (eptIndex gpa 39)) = true)
    (h1a : EptEntry.address (M.mem root (eptIndex gpa 39)) = p1)
    (h2 : EptEntry.is_present (M.mem p1 (eptIndex gpa 30)) = true)
    (h2a : EptEntry.address (M.mem p1 (eptIndex gpa 30)) = p2)
    (h3 : EptEntry.is_present (M.mem p2 (eptIndex gpa 21)) = true)
    (h3a : EptEntry.address (M.mem p2 (eptIndex gpa 21)) = p3)
    (h4 : EptEntry.is_present (M.mem p3 (eptIndex gpa 12)) = true)
    (h4a : EptEntry.address (M.mem p3 (eptIndex gpa 12)) = hpa) :
    translate M root gpa = some hpa := by
  simp [translate, h1, h1a, h2, h2a, h3, h3a, h4, h4a]

/-- `unmap` on a fully present chain clears the leaf entry. -/
theorem unmap_leaf {M : Machine} {root gpa p1 p2 p3 : Nat}
    (h1 : EptEntry.is_present (M.mem root (eptIndex gpa 39)) = true)
    (h1a : EptEntry.address (M.mem root (eptIndex gpa 39)) = p1)
    (h2 : EptEntry.is_present (M.mem p1 (eptIndex gpa 30)) = true)
    (h2a : EptEntry.address (M.mem p1 (eptIndex gpa 30)) = p2)
    (h3 : EptEntry.is_present (M.mem p2 (eptIndex gpa 21)) = true)
    (h3a : EptEntry.address (M.mem p2 (eptIndex gpa 21)) = p3) :
    EptMapper.unmap M root gpa = (.ok (), writeEntry M p3 (eptIndex gpa 12) 0) := by
  simp [EptMapper.unmap, h1, h1a, h2, h2a, h3, h3a]

/-- Clearing the leaf of a fully present chain makes the lookup report "not
mapped", provided the leaf table frame differs from the frames above it. -/
theorem translate_none_after_clear {M : Machine} {root gpa p1 p2 p3 : Nat}
    (hn1 : p3 ≠ root) (hn2 : p3 ≠ p1) (hn3 : p3 ≠ p2)
    (h1 : EptEntry.is_present (M.mem root (eptIndex gpa 39)) = true)
    (h1a : EptEntry.address (M.mem root (eptIndex gpa 39)) = p1)
    (h2 : EptEntry.is_present (M.mem p1 (eptIndex gpa 30)) = true)
    (h2a : EptEntry.address (M.mem p1 (eptIndex gpa 30)) = p2)
    (h3 : EptEntry.is_present (M.mem p2 (eptIndex gpa 21)) = true)
    (h3a : EptEntry.address (M.mem p2 (eptIndex gpa 21)) = p3) :
    translate (writeEntry M p3 (eptIndex gpa 12) 0) root gpa = none := by
  have e1 := writeEntry_mem_ne_frame M (eptIndex gpa 12) (eptIndex gpa 39) 0 (Ne.symm hn1)
  have e2 := writeEntry_mem_ne_frame M (eptIndex gpa 12) (eptIndex gpa 30) 0 (Ne.symm hn2)
  have e3 := writeEntry_mem_ne_frame M (eptIndex gpa 12) (eptIndex gpa 21) 0 (Ne.symm hn3)
  simp [translate, e1, e2, e3, h1, h1a, h2, h2a, h3, h3a, writeEntry_mem_same,
    is_present_zero]

/-- C1: the claim quantifies over all flags, but `map(gpa, hpa, flags)`
with flags granting none of read/write/execute writes a leaf entry whose
R/W/X bits are all clear; `EptEntry::is_present` then reports the entry
absent, so a four-level lookup that respects the present encoding returns
"not mapped" rather than `hpa` even though `map` succeeded. -/
theorem C1_roundtrip_counterexample :
    (EptMapper.map sampleMachine sampleRoot 0x5000 0x7000
      (EptFlags.new false false false)).1 = .ok () ∧
    translate (EptMapper.map sampleMachine sampleRoot 0x5000 0x7000
      (EptFlags.new false false false)).2 sampleRoot 0x5000 = none := by
  constructor <;> rfl

/-- C1 (amended): for every frame-aligned `gpa`, `hpa` and flags granting
at least one of read/write/execute, from any state whose walk path for
`gpa` consists of pairwise-distinct table frames and whose free frames are
frame-aligned, below `2 ^ 52`, pairwise distinct and disjoint from that
path: after `map(gpa, hpa, flags)` succeeds, the four-level lookup at `gpa`
returns `hpa`; and after a subsequent `unmap(gpa)` (which succeeds), the
same lookup returns "not mapped". -/
theorem C1_roundtrip_amended
    {m : Machine} {root gpa hpa : Nat} {flags : EptFlags} {M : Machine}
    (hnd : (pathFrames m root gpa).Nodup)
    (hfr : m.free.Nodup)
    (hdisj : ∀ f ∈ m.free, f % 4096 = 0 ∧ f < 2 ^ 52 ∧ f ∉ pathFrames m root gpa)
    (hpa4096 : hpa % 4096 = 0) (hpalt : hpa < 2 ^ 52)
    (hperm : (flags.read || flags.write || flags.execute) = true)
    (hmap : EptMapper.map m root gpa hpa flags = (.ok (), M)) :
    translate M root gpa = some hpa ∧
    (EptMapper.unmap M root gpa).1 = .ok () ∧
    translate (EptMapper.unmap M root gpa).2 root gpa = none := by
  obtain ⟨p1, p2, p3, hn1, hn2, hn3, h1, h1a, h2, h2a, h3, h3a, h4a, h4p⟩ :=
    ept_map_chain hnd hfr hdisj hpa4096 hpalt hmap
  have h4 : EptEntry.is_present (M.mem p3 (eptIndex gpa 12)) = true := by
    rw [h4p, hperm]
  refine ⟨translate_some h1 h1a h2 h2a h3 h3a h4 h4a, ?_, ?_⟩
  · rw [unmap_leaf h1 h1a h2 h2a h3 h3a]
  · rw [unmap_leaf h1 h1a h2 h2a h3 h3a]
    exact translate_none_after_clear hn1 hn2 hn3 h1 h1a h2 h2a h3 h3a

/-- C1 witness: the amended round-trip at a concrete machine, root, guest
address, host address and read-write flags. -/
theorem C1_roundtrip_amended_witness :
    translate (EptMapper.map sampleMachine sampleRoot 0x5000 0x7000
      (EptFlags.new true true false)).2 sampleRoot 0x5000 = some 0x7000 ∧
    (EptMapper.unmap (EptMapper.map sampleMachine sampleRoot 0x5000 0x7000
      (EptFlags.new true true false)).2 sampleRoot 0x5000).1 = .ok () ∧
    translate (EptMapper.unmap (EptMapper.map sampleMachine sampleRoot 0x5000 0x7000
      (EptFlags.new true true false)).2 sampleRoot 0x5000).2 sampleRoot 0x5000 = none :=
  @C1_roundtrip_amended sampleMachine sampleRoot 0x5000 0x7000
    (EptFlags.new true true false)
    (EptMapper.map sampleMachine sampleRoot 0x5000 0x7000 (EptFlags.new true true false)).2
    (by decide) (by decide) (by decide) (by decide) (by decide) (by decide) rfl

theorem writeEntry_mem_ne (m : Machine) {b i b' i' : Nat} (v : Nat)
    (h : ¬ (b' = b ∧ i' = i)) :
    (writeEntry m b i v).mem b' i' = m.mem b' i' := by
  simp only [writeEntry]
  rw [if_neg h]

/-- `unmap` returns immediately when the root entry is absent. -/
theorem unmap_early1 {m : Machine} {root gpa : Nat}
    (h1 : EptEntry.is_present (m.mem root (eptIndex gpa 39)) = false) :
    EptMapper.unmap m root gpa = (.ok (), m) := by
  simp [EptMapper.unmap, h1]

/-- `unmap` returns immediately when the second-level entry is absent. -/
theorem unmap_early2 {m : Machine} {root gpa p1 : Nat}
    (h1 : EptEntry.is_present (m.mem root (eptIndex gpa 39)) = true)
    (h1a : EptEntry.address (m.mem root (eptIndex gpa 39)) = p1)
    (h2 : EptEntry.is_present (m.mem p1 (eptIndex gpa 30)) = false) :
    EptMapper.unmap m root gpa = (.ok (), m) := by
  simp [EptMapper.unmap, h1, h1a, h2]

/-- `unmap` returns immediately when the third-level entry is absent. -/
theorem unmap_early3 {m : Machine} {root gpa p1 p2 : Nat}
    (h1 : EptEntry.is_present (m.mem root (eptIndex gpa 39)) = true)
    (h1a : EptEntry.address (m.mem root (eptIndex gpa 39)) = p1)
    (h2 : EptEntry.is_present (m.mem p1 (eptIndex gpa 30)) = true)
    (h2a : EptEntry.address (m.mem p1 (eptIndex gpa 30)) = p2)
    (h3 : EptEntry.is_present (m.mem p2 (eptIndex gpa 21)) = false) :
    EptMapper.unmap m root gpa = (.ok (), m) := by
  simp [EptMapper.unmap, h1, h1a, h2, h2a, h3]

/-- C3: `map` derives its four 9-bit indices from bits 39/30/21/12 of the
guest address; `get_or_create_table` follows a present entry without
touching the state, and on an absent entry allocates the next free frame,
zeroes it and installs an intermediate entry carrying full
read+write+execute permission; when the allocator is exhausted mid-walk,
`map` fails with `OutOfMemory` and the intermediate table installed by the
earlier step of that call remains allocated (no rollback); when all three
intermediate levels are present, only the leaf entry is overwritten, with
`hpa` and the caller-supplied flags. -/
theorem C3_map_walk :
    (∀ gpa shift, eptIndex gpa shift = gpa / 2 ^ shift % 512 ∧ eptIndex gpa shift < 512) ∧
    (∀ m b i, EptEntry.is_present (m.mem b i) = true →
      EptMapper.get_or_create_table m b i = .ok (EptEntry.address (m.mem b i), m)) ∧
    (∀ m b i f rest, EptEntry.is_present (m.mem b i) = false → m.free = f :: rest →
      f % 4096 = 0 → f < 2 ^ 52 → f ≠ b →
      ∃ m', EptMapper.get_or_create_table m b i = .ok (f, m') ∧
        m'.free = rest ∧
        EptEntry.is_present (m'.mem b i) = true ∧
        EptEntry.address (m'.mem b i) = f ∧
        m'.mem b i &&& 7 = 7 ∧
        (∀ j, m'.mem f j = 0)) ∧
    (∀ m root gpa hpa flags f,
      EptEntry.is_present (m.mem root (eptIndex gpa 39)) = false →
      m.free = [f] → f ≠ root → f % 4096 = 0 → f < 2 ^ 52 →
      ∃ M, EptMapper.map m root gpa hpa flags = (.error .OutOfMemory, M) ∧
        EptEntry.is_present (M.mem root (eptIndex gpa 39)) = true ∧
        M.free = []) ∧
    (∀ m root gpa hpa flags,
      EptEntry.is_present (m.mem root (eptIndex gpa 39)) = true →
      EptEntry.is_present
        (m.mem (EptEntry.address (m.mem root (eptIndex gpa 39)))
          (eptIndex gpa 30)) = true →
      EptEntry.is_present
        (m.mem (EptEntry.address
            (m.mem (EptEntry.address (m.mem root (eptIndex gpa 39)))
              (eptIndex gpa 30)))
          (eptIndex gpa 21)) = true →
      EptMapper.map m root gpa hpa flags =
        (.ok (), writeEntry m
          (EptEntry.address
            (m.mem (EptEntry.address
                (m.mem (EptEntry.address (m.mem root (eptIndex gpa 39)))
                  (eptIndex gpa 30)))
              (eptIndex gpa 21)))
          (eptIndex gpa 12)
          (EptEntry.set_address
            (m.mem (EptEntry.address
                (m.mem (EptEntry.address
                    (m.mem (EptEntry.address (m.mem root (eptIndex gpa 39)))
                      (eptIndex gpa 30)))
                  (eptIndex gpa 21)))
              (eptIndex gpa 12)) hpa flags.to_ept_entry))) := by
  refine ⟨?_, ?_, ?_, ?_, ?_⟩
  · intro gpa shift
    constructor
    · rw [eptIndex, Nat.shiftRight_eq_div_pow,
        show (0x1FF : Nat) = 2 ^ 9 - 1 from rfl, Nat.and_pow_two_sub_one_eq_mod]
    · rw [eptIndex, show (0x1FF : Nat) = 2 ^ 9 - 1 from rfl,
        Nat.and_pow_two_sub_one_eq_mod]
      exact Nat.mod_lt _ (by norm_num)
  · intro m b i h
    exact gOC_present h
  · intro m b i f rest habs hfree hf4096 hflt hfb
    refine ⟨_, gOC_absent_cons habs hfree, rfl, ?_, ?_, ?_, ?_⟩
    · rw [writeEntry_mem_same]
      exact intermediate_entry_present hf4096 hflt
    · rw [writeEntry_mem_same]
      exact intermediate_entry_address hf4096 hflt
    · rw [writeEntry_mem_same,
        set_address_low (aligned_land_addrMask hf4096 hflt), rwx_to_ept_entry]
      decide
    · intro j
      rw [writeEntry_mem_ne_frame _ _ _ _ hfb, zeroFrame_mem_same]
  · intro m root gpa hpa flags f hP1 hfree hfr hf4096 hflt
    refine ⟨writeEntry (zeroFrame ⟨m.mem, []⟩ f) root (eptIndex gpa 39)
      (EptEntry.set_address (m.mem root (eptIndex gpa 39)) f
        EptFlags.read_write_execute.to_ept_entry), ?_, ?_, ?_⟩
    · simp only [EptMapper.map, gOC_absent_cons hP1 hfree, Machine.mk_mem,
        zeroFrame_mem_ne _ _ (Ne.symm hfr),
        gOC_absent_nil
          (show EptEntry.is_present ((writeEntry (zeroFrame ⟨m.mem, []⟩ f) root
              (eptIndex gpa 39)
              (EptEntry.set_address (m.mem root (eptIndex gpa 39)) f
                EptFlags.read_write_execute.to_ept_entry)).mem f (eptIndex gpa 30)) =
            false by
            rw [writeEntry_mem_ne_frame _ _ _ _ hfr, zeroFrame_mem_same]
            exact is_present_zero)
          rfl]
    · rw [writeEntry_mem_same]
      exact intermediate_entry_present hf4096 hflt
    · rfl
  · intro m root gpa hpa flags hP1 hP2 hP3
    simp only [EptMapper.map, gOC_present hP1, gOC_present hP2, gOC_present hP3]

/-- C4: `unmap` always succeeds; when any of the three intermediate
entries on the walk is absent it returns immediately with the table state
untouched (so unmapping a never-mapped or already-unmapped address is a
successful no-op); and `unmap` is idempotent: running it again on the
resulting state succeeds and changes nothing. -/
theorem C4_unmap_idempotent :
    (∀ m root gpa, (EptMapper.unmap m root gpa).1 = .ok ()) ∧
    (∀ m root gpa,
      EptEntry.is_present (m.mem root (eptIndex gpa 39)) = false →
      EptMapper.unmap m root gpa = (.ok (), m)) ∧
    (∀ m root gpa,
      EptEntry.is_present (m.mem root (eptIndex gpa 39)) = true →
      EptEntry.is_present
        (m.mem (EptEntry.address (m.mem root (eptIndex gpa 39)))
          (eptIndex gpa 30)) = false →
      EptMapper.unmap m root gpa = (.ok (), m)) ∧
    (∀ m root gpa,
      EptEntry.is_present (m.mem root (eptIndex gpa 39)) = true →
      EptEntry.is_present
        (m.mem (EptEntry.address (m.mem root (eptIndex gpa 39)))
          (eptIndex gpa 30)) = true →
      EptEntry.is_present
        (m.mem (EptEntry.address
            (m.mem (EptEntry.address (m.mem root (eptIndex gpa 39)))
              (eptIndex gpa 30)))
          (eptIndex gpa 21)) = false →
      EptMapper.unmap m root gpa = (.ok (), m)) ∧
    (∀ m root gpa,
      EptMapper.unmap (EptMapper.unmap m root gpa).2 root gpa =
        (.ok (), (EptMapper.unmap m root gpa).2)) := by
  refine ⟨?_, ?_, ?_, ?_, ?_⟩
  · intro m root gpa
    by_cases h1 : EptEntry.is_present (m.mem root (eptIndex gpa 39)) = true
    · by_cases h2 : EptEntry.is_present
        (m.mem (EptEntry.address (m.mem root (eptIndex gpa 39)))
          (eptIndex gpa 30)) = true
      · by_cases h3 : EptEntry.is_present
          (m.mem (EptEntry.address
              (m.mem (EptEntry.address (m.mem root (eptIndex gpa 39)))
                (eptIndex gpa 30)))
            (eptIndex gpa 21)) = true
        · rw [unmap_leaf h1 rfl h2 rfl h3 rfl]
        · rw [unmap_early3 h1 rfl h2 rfl (Bool.not_eq_true _ |>.mp h3)]
      · rw [unmap_early2 h1 rfl (Bool.not_eq_true _ |>.mp h2)]
    · rw [unmap_early1 (Bool.not_eq_true _ |>.mp h1)]
  · intro m root gpa h1
    exact unmap_early1 h1
  · intro m root gpa h1 h2
    exact unmap_early2 h1 rfl h2
  · intro m root gpa h1 h2 h3
    exact unmap_early3 h1 rfl h2 rfl h3
  · intro m root gpa
    by_cases h1 : EptEntry.is_present (m.mem root (eptIndex gpa 39)) = true
    case neg =>
      have h1' := Bool.not_eq_true _ |>.mp h1
      rw [unmap_early1 h1']
      exact unmap_early1 h1'
    case pos =>
    set p1T := EptEntry.address (m.mem root (eptIndex gpa 39)) with hp1T
    by_cases h2 : EptEntry.is_present (m.mem p1T (eptIndex gpa 30)) = true
    case neg =>
      have h2' := Bool.not_eq_true _ |>.mp h2
      rw [unmap_early2 h1 hp1T.symm h2']
      exact unmap_early2 h1 hp1T.symm h2'
    case pos =>
    set p2T := EptEntry.address (m.mem p1T (eptIndex gpa 30)) with hp2T
    by_cases h3 : EptEntry.is_present (m.mem p2T (eptIndex gpa 21)) = true
    case neg =>
      have h3' := Bool.not_eq_true _ |>.mp h3
      rw [unmap_early3 h1 hp1T.symm h2 hp2T.symm h3']
      exact unmap_early3 h1 hp1T.symm h2 hp2T.symm h3'
    case pos =>
    set p3T := EptEntry.address (m.mem p2T (eptIndex gpa 21)) with hp3T
    rw [unmap_leaf h1 hp1T.symm h2 hp2T.symm h3 hp3T.symm]
    by_cases q1 : p3T = root ∧ eptIndex gpa 12 = eptIndex gpa 39
    · refine unmap_early1 ?_
      rw [← q1.1, ← q1.2, writeEntry_mem_same]
      exact is_present_zero
    · have e1 : (writeEntry m p3T (eptIndex gpa 12) 0).mem root (eptIndex gpa 39) =
          m.mem root (eptIndex gpa 39) :=
        writeEntry_mem_ne m 0 (fun hc => q1 ⟨hc.1.symm, hc.2.symm⟩)
      by_cases q2 : p3T = p1T ∧ eptIndex gpa 12 = eptIndex gpa 30
      · refine unmap_early2 (by rw [e1]; exact h1) (by rw [e1, ← hp1T]) ?_
        rw [← q2.1, ← q2.2, writeEntry_mem_same]
        exact is_present_zero
      · have e2 : (writeEntry m p3T (eptIndex gpa 12) 0).mem p1T (eptIndex gpa 30) =
            m.mem p1T (eptIndex gpa 30) :=
          writeEntry_mem_ne m 0 (fun hc => q2 ⟨hc.1.symm, hc.2.symm⟩)
        by_cases q3 : p3T = p2T ∧ eptIndex gpa 12 = eptIndex gpa 21
        · refine unmap_early3 (by rw [e1]; exact h1) (by rw [e1, ← hp1T])
            (by rw [e2]; exact h2) (by rw [e2, ← hp2T]) ?_
          rw [← q3.1, ← q3.2, writeEntry_mem_same]
          exact is_present_zero
        · have e3 : (writeEntry m p3T (eptIndex gpa 12) 0).mem p2T (eptIndex gpa 21) =
              m.mem p2T (eptIndex gpa 21) :=
            writeEntry_mem_ne m 0 (fun hc => q3 ⟨hc.1.symm, hc.2.symm⟩)
          rw [unmap_leaf (by rw [e1]; exact h1) (by rw [e1, ← hp1T])
            (by rw [e2]; exact h2) (by rw [e2, ← hp2T])
            (by rw [e3]; exact h3) (by rw [e3, ← hp3T]),
            writeEntry_of_eq _ (writeEntry_mem_same m p3T (eptIndex gpa 12) 0)]

/-- C3 witness: the walk facts at concrete machines, addresses and flags. -/
theorem C3_map_walk_witness :
    (eptIndex 0x5000 39 = 0x5000 / 2 ^ 39 % 512 ∧ eptIndex 0x5000 39 < 512) ∧
    EptMapper.get_or_create_table sampleMapped sampleRoot (eptIndex 0x5000 39) =
      .ok (EptEntry.address (sampleMapped.mem sampleRoot (eptIndex 0x5000 39)),
        sampleMapped) ∧
    (∃ m', EptMapper.get_or_create_table sampleMachine sampleRoot 7 = .ok (0x2000, m') ∧
      m'.free = [0x3000, 0x4000] ∧
      EptEntry.is_present (m'.mem sampleRoot 7) = true ∧
      EptEntry.address (m'.mem sampleRoot 7) = 0x2000 ∧
      m'.mem sampleRoot 7 &&& 7 = 7 ∧
      (∀ j, m'.mem 0x2000 j = 0)) ∧
    (∃ M, EptMapper.map oomMachine sampleRoot 0x5000 0x7000 (EptFlags.new true true false) =
      (.error .OutOfMemory, M) ∧
      EptEntry.is_present (M.mem sampleRoot (eptIndex 0x5000 39)) = true ∧
      M.free = []) ∧
    EptMapper.map sampleMapped sampleRoot 0x5000 0x9000 (EptFlags.new true false false) =
      (.ok (), writeEntry sampleMapped
        (EptEntry.address
          (sampleMapped.mem (EptEntry.address
              (sampleMapped.mem (EptEntry.address
                  (sampleMapped.mem sampleRoot (eptIndex 0x5000 39)))
                (eptIndex 0x5000 30)))
            (eptIndex 0x5000 21)))
        (eptIndex 0x5000 12)
        (EptEntry.set_address
          (sampleMapped.mem (EptEntry.address
              (sampleMapped.mem (EptEntry.address
                  (sampleMapped.mem (EptEntry.address
                      (sampleMapped.mem sampleRoot (eptIndex 0x5000 39)))
                    (eptIndex 0x5000 30)))
                (eptIndex 0x5000 21)))
            (eptIndex 0x5000 12)) 0x9000 (EptFlags.new true false false).to_ept_entry)) :=
  ⟨C3_map_walk.1 0x5000 39,
   C3_map_walk.2.1 sampleMapped sampleRoot (eptIndex 0x5000 39) (by decide),
   C3_map_walk.2.2.1 sampleMachine sampleRoot 7 0x2000 [0x3000, 0x4000]
     (by decide) rfl (by decide) (by decide) (by decide),
   C3_map_walk.2.2.2.1 oomMachine sampleRoot 0x5000 0x7000 (EptFlags.new true true false)
     0x2000 (by decide) rfl (by decide) (by decide) (by decide),
   C3_map_walk.2.2.2.2 sampleMapped sampleRoot 0x5000 0x9000 (EptFlags.new true false false)
     (by decide) (by decide) (by decide)⟩

/-- C4 witness: the unmap facts at concrete machines and guest addresses
(`0x40005000` and `0x205000` share walk prefixes with the mapped `0x5000`
but are absent at the second and third level respectively). -/
theorem C4_unmap_idempotent_witness :
    (EptMapper.unmap sampleMapped sampleRoot 0x5000).1 = .ok () ∧
    EptMapper.unmap sampleMachine sampleRoot 0x5000 = (.ok (), sampleMachine) ∧
    EptMapper.unmap sampleMapped sampleRoot 0x40005000 = (.ok (), sampleMapped) ∧
    EptMapper.unmap sampleMapped sampleRoot 0x205000 = (.ok (), sampleMapped) ∧
    EptMapper.unmap (EptMapper.unmap sampleMapped sampleRoot 0x5000).2 sampleRoot 0x5000 =
      (.ok (), (EptMapper.unmap sampleMapped sampleRoot 0x5000).2) :=
  ⟨C4_unmap_idempotent.1 sampleMapped sampleRoot 0x5000,
   C4_unmap_idempotent.2.1 sampleMachine sampleRoot 0x5000 (by decide),
   C4_unmap_idempotent.2.2.1 sampleMapped sampleRoot 0x40005000 (by decide) (by decide),
   C4_unmap_idempotent.2.2.2.1 sampleMapped sampleRoot 0x205000 (by decide) (by decide)
     (by decide),
   C4_unmap_idempotent.2.2.2.2 sampleMapped sampleRoot 0x5000⟩

/-! ## Claims about the VM memory-region bookkeeping -/

/-- C2: the overlap check computes region ends in wrapping `u64`
arithmetic, so for a region whose `gpa + size` exceeds `2 ^ 64` the
computed end wraps to a small value and a mathematically overlapping
second region is accepted: both regions here overlap in the sense
`a.gpa < b.gpa + b.size ∧ b.gpa < a.gpa + a.size`, yet the second
`map_memory` call succeeds instead of failing with
`InvalidMemoryRegion`. -/
theorem C2_overlap_counterexample :
    (wrapRegionA.gpa < wrapRegionB.gpa + wrapRegionB.size ∧
      wrapRegionB.gpa < wrapRegionA.gpa + wrapRegionA.size) ∧
    Vm.map_memory ArchVmData.map_memory [] wrapRegionA = (.ok (), [wrapRegionA]) ∧
    (Vm.map_memory ArchVmData.map_memory [wrapRegionA] wrapRegionB).1 = .ok () := by
  refine ⟨by decide, rfl, rfl⟩

/-- C2 (amended): for regions whose `gpa + size` fits in the 64-bit range:
mapping two non-overlapping regions (`a.gpa + a.size ≤ b.gpa` or
`b.gpa + b.size ≤ a.gpa`) into the same VM succeeds for both, and for an
overlapping pair the second `map_memory` call fails with
`InvalidMemoryRegion` — whatever the backend — leaving the region list
unchanged. -/
theorem C2_map_memory_amended (a b : MemoryRegion)
    (ha : a.gpa + a.size < 2 ^ 64) (hb : b.gpa + b.size < 2 ^ 64) :
    ((a.gpa + a.size ≤ b.gpa ∨ b.gpa + b.size ≤ a.gpa) →
      Vm.map_memory ArchVmData.map_memory [] a = (.ok (), [a]) ∧
      Vm.map_memory ArchVmData.map_memory [a] b = (.ok (), [a, b])) ∧
    ((a.gpa < b.gpa + b.size ∧ b.gpa < a.gpa + a.size) →
      ∀ arch, Vm.map_memory arch [a] b = (.error .InvalidMemoryRegion, [a])) := by
  constructor
  · intro hno
    have hov : regions_overlap a b = false := by
      rcases hno with h | h
      · have h2 : decide (b.gpa < (a.gpa + a.size) % 2 ^ 64) = false := by
          rw [Nat.mod_eq_of_lt ha]
          exact decide_eq_false (Nat.not_lt.mpr h)
        simp only [regions_overlap]
        rw [h2, Bool.and_false]
      · have h2 : decide (a.gpa < (b.gpa + b.size) % 2 ^ 64) = false := by
          rw [Nat.mod_eq_of_lt hb]
          exact decide_eq_false (Nat.not_lt.mpr h)
        simp only [regions_overlap]
        rw [h2, Bool.false_and]
    constructor
    · rfl
    · simp [Vm.map_memory, hov, ArchVmData.map_memory]
  · intro hov arch
    have hov' : regions_overlap a b = true := by
      simp only [regions_overlap]
      rw [Nat.mod_eq_of_lt ha, Nat.mod_eq_of_lt hb]
      simp [hov.1, hov.2]
    simp [Vm.map_memory, hov']

/-- C2 witness: the amended statement at two concrete adjacent regions and
two concrete overlapping regions. -/
theorem C2_map_memory_amended_witness :
    (Vm.map_memory ArchVmData.map_memory []
        (⟨0x1000, 0x7000, 0x1000, 3⟩ : MemoryRegion) =
      (.ok (), [⟨0x1000, 0x7000, 0x1000, 3⟩]) ∧
     Vm.map_memory ArchVmData.map_memory [⟨0x1000, 0x7000, 0x1000, 3⟩]
        (⟨0x2000, 0x8000, 0x1000, 3⟩ : MemoryRegion) =
      (.ok (), [⟨0x1000, 0x7000, 0x1000, 3⟩, ⟨0x2000, 0x8000, 0x1000, 3⟩])) ∧
    Vm.map_memory ArchVmData.map_memory [⟨0x1000, 0x7000, 0x1000, 3⟩]
        (⟨0x1800, 0x9000, 0x1000, 3⟩ : MemoryRegion) =
      (.error .InvalidMemoryRegion, [⟨0x1000, 0x7000, 0x1000, 3⟩]) :=
  ⟨(C2_map_memory_amended ⟨0x1000, 0x7000, 0x1000, 3⟩ ⟨0x2000, 0x8000, 0x1000, 3⟩
      (by decide) (by decide)).1 (Or.inl (by decide)),
   (C2_map_memory_amended ⟨0x1000, 0x7000, 0x1000, 3⟩ ⟨0x1800, 0x9000, 0x1000, 3⟩
      (by decide) (by decide)).2 (by decide) ArchVmData.map_memory⟩

/-! ## Claims about the VCPU lifecycle -/

/-- C5: `run` on a VCPU not in `Stopped` fails with `ArchError`; `resume`
on a VCPU not in `Exited` fails with `ArchError`; and when either
succeeds, the resulting VCPU is in state `Exited` with the returned exit
reason recorded as its last exit. -/
theorem C5_vcpu_run_resume :
    (∀ v : Vcpu, v.state ≠ VcpuState.Stopped →
      (Vcpu.run v).1 = .error (.ArchError 0)) ∧
    (∀ v : Vcpu, v.state ≠ VcpuState.Exited →
      (Vcpu.resume v).1 = .error (.ArchError 1)) ∧
    (∀ v v' ex, Vcpu.run v = (.ok ex, v') →
      v'.state = VcpuState.Exited ∧ v'.last_exit = ex) ∧
    (∀ v v' ex, Vcpu.resume v = (.ok ex, v') →
      v'.state = VcpuState.Exited ∧ v'.last_exit = ex) := by
  refine ⟨?_, ?_, ?_, ?_⟩
  · intro v h
    simp [Vcpu.run, h]
  · intro v h
    simp [Vcpu.resume, h]
  · intro v v' ex h
    by_cases hs : v.state ≠ VcpuState.Stopped
    · simp [Vcpu.run, hs] at h
    · simp only [Vcpu.run, hs, if_false, ArchVcpuData.set_regs, ArchVcpuData.run,
        ArchVcpuData.get_regs, Prod.mk.injEq, Except.ok.injEq] at h
      obtain ⟨hex, hv⟩ := h
      subst hex
      subst hv
      exact ⟨rfl, rfl⟩
  · intro v v' ex h
    by_cases hs : v.state ≠ VcpuState.Exited
    · simp [Vcpu.resume, hs] at h
    · simp only [Vcpu.resume, hs, if_false, ArchVcpuData.set_regs, ArchVcpuData.run,
        ArchVcpuData.get_regs, Prod.mk.injEq, Except.ok.injEq] at h
      obtain ⟨hex, hv⟩ := h
      subst hex
      subst hv
      exact ⟨rfl, rfl⟩

/-- C5 witness: the state-machine facts at concrete VCPUs. -/
theorem C5_vcpu_run_resume_witness :
    (Vcpu.run { sampleVcpu with state := VcpuState.Running }).1 =
      .error (.ArchError 0) ∧
    (Vcpu.resume sampleVcpu).1 = .error (.ArchError 1) ∧
    ((Vcpu.run sampleVcpu).2.state = VcpuState.Exited ∧
      (Vcpu.run sampleVcpu).2.last_exit = VcpuExit.Unknown) ∧
    ((Vcpu.resume { sampleVcpu with state := VcpuState.Exited }).2.state =
        VcpuState.Exited ∧
      (Vcpu.resume { sampleVcpu with state := VcpuState.Exited }).2.last_exit =
        VcpuExit.Unknown) :=
  ⟨C5_vcpu_run_resume.1 _ (by decide),
   C5_vcpu_run_resume.2.1 _ (by decide),
   C5_vcpu_run_resume.2.2.1 sampleVcpu (Vcpu.run sampleVcpu).2 VcpuExit.Unknown rfl,
   C5_vcpu_run_resume.2.2.2 { sampleVcpu with state := VcpuState.Exited }
     (Vcpu.resume { sampleVcpu with state := VcpuState.Exited }).2 VcpuExit.Unknown rfl⟩

/-- C10: `stop` has no precondition: for a VCPU in any state it returns
`Ok` and leaves the VCPU in `Stopped`, changing nothing else; it is
idempotent, and it succeeds on a freshly created (never run) VCPU. -/
theorem C10_vcpu_stop :
    (∀ v : Vcpu, Vcpu.stop v = (.ok (), { v with state := VcpuState.Stopped })) ∧
    (∀ v : Vcpu, Vcpu.stop ((Vcpu.stop v).2) = Vcpu.stop v) ∧
    (∀ id vm_id config, (Vcpu.stop (Vcpu.new id vm_id config)).1 = .ok () ∧
      (Vcpu.stop (Vcpu.new id vm_id config)).2.state = VcpuState.Stopped) :=
  ⟨fun _ => rfl, fun _ => rfl, fun _ _ _ => ⟨rfl, rfl⟩⟩

/-! ## Claims about the VM state machine -/

/-- C6: the claim that only legal transitions are reachable fails:
`Vm::set_state` stores unconditionally, so from the initial `Creating`
state a single call reaches `Running` (which the spec's order forbids),
and a VM in the supposedly terminal `Destroying` state can be moved back
to `Running`. -/
theorem C6_vm_transition_counterexample :
    Vm.set_state Vm.initialState VmState.Running = VmState.Running ∧
    specLegalVmTransition VmState.Creating VmState.Running = false ∧
    Vm.set_state VmState.Destroying VmState.Running = VmState.Running ∧
    specLegalVmTransition VmState.Destroying VmState.Running = false :=
  ⟨rfl, rfl, rfl, rfl⟩

/-- C6 (amended): `Vm::set_state` enforces no transition discipline: it
stores whatever state is requested regardless of the current state, so
every state is reachable from every state in one step, and every state is
reachable from the initial one. -/
theorem C6_vm_transition_amended :
    (∀ s t : VmState, Vm.set_state s t = t) ∧ (∀ t : VmState, vmReachable t) :=
  ⟨fun _ _ => rfl,
   fun t => vmReachable.step Vm.initialState t vmReachable.init⟩

/-! ## Claims about global initialization -/

/-- Successful detection always reports hardware virtualization
available. -/
theorem detect_capabilities_hw_virt {hw : Hw} {caps : HypervisorCaps}
    (h : detect_capabilities hw = .ok caps) : caps.hw_virt_available = true := by
  unfold detect_capabilities at h
  cases hd : detect_virt_tech hw <;> rw [hd] at h
  · exact absurd h (by simp)
  · simp only [Except.ok.injEq] at h
    rw [← h]

/-- C7: when capability detection and the backend initialization succeed,
the first `init` call returns the capability report and sets the
process-wide flag; a second call then fails with `AlreadyInitialized`. -/
theorem C7_init_twice (hw : Hw) (caps : HypervisorCaps)
    (hdet : detect_capabilities hw = .ok caps)
    (harch : archInit hw = .ok ()) :
    init hw false = (.ok caps, true) ∧
    (init hw (init hw false).2).1 = .error .AlreadyInitialized := by
  have hv := detect_capabilities_hw_virt hdet
  have h1 : init hw false = (.ok caps, true) := by
    simp [init, hdet, hv, harch]
  refine ⟨h1, ?_⟩
  rw [h1]
  simp [init]

/-- C7 witness: the double-init scenario at the concrete good hardware. -/
theorem C7_init_twice_witness :
    init goodHw false =
      (.ok ⟨true, .X86_64, 64, 256, false,
        ModeSupportFlags.TYPE1 ||| ModeSupportFlags.VIRTIO ||| ModeSupportFlags.HVT⟩,
        true) ∧
    (init goodHw (init goodHw false).2).1 = .error .AlreadyInitialized :=
  C7_init_twice goodHw _ rfl rfl

/-- C8: the claim that a hardware-setup failure clears the initialized
flag fails: when the VMX enable step signals failure, `init` propagates
`InitializationFailed` with the flag still set, `is_initialized` reports
`true`, and a subsequent `init` attempt fails with `AlreadyInitialized`
instead of being possible. -/
theorem C8_init_rollback_counterexample :
    (init badHw false).1 = .error .InitializationFailed ∧
    is_initialized (init badHw false).2 = true ∧
    (init badHw (init badHw false).2).1 = .error .AlreadyInitialized :=
  ⟨rfl, rfl, rfl⟩

/-- C8 (amended): the flag-clearing rollback branch is unreachable, because
successful capability detection always reports hardware virtualization
available; every detected failure — capability detection itself or the
architecture backend's init (e.g. the enable instruction signalling
failure) — propagates its error with the initialized flag left set, so no
subsequent `init` attempt is possible. -/
theorem C8_init_rollback_amended (hw : Hw) :
    (∀ caps, detect_capabilities hw = .ok caps → caps.hw_virt_available = true) ∧
    (∀ e, detect_capabilities hw = .error e → init hw false = (.error e, true)) ∧
    (∀ caps e, detect_capabilities hw = .ok caps → archInit hw = .error e →
      init hw false = (.error e, true)) := by
  refine ⟨fun caps h => detect_capabilities_hw_virt h, ?_, ?_⟩
  · intro e hdet
    simp [init, hdet]
  · intro caps e hdet harch
    have hv := detect_capabilities_hw_virt hdet
    simp [init, hdet, hv, harch]

/-- C8 witness: the amended statement at concrete hardware configurations:
detection reports virtualization available on the good hardware; on
hardware with no extensions the `NotSupported` error leaves the flag set;
on hardware whose VMXON fails the `InitializationFailed` error leaves the
flag set. -/
theorem C8_init_rollback_amended_witness :
    (⟨true, .X86_64, 64, 256, false,
        ModeSupportFlags.TYPE1 ||| ModeSupportFlags.VIRTIO |||
          ModeSupportFlags.HVT⟩ : HypervisorCaps).hw_virt_available = true ∧
    init noHw false = (.error .NotSupported, true) ∧
    init badHw false = (.error .InitializationFailed, true) :=
  ⟨(C8_init_rollback_amended goodHw).1 _ rfl,
   (C8_init_rollback_amended noHw).2.1 .NotSupported rfl,
   (C8_init_rollback_amended badHw).2.2 _ .InitializationFailed rfl rfl⟩

/-! ## Claims about VM unmap bookkeeping -/

/-- C9: the claim that `unmap_memory` delegates to the Translation Engine
before removing the descriptor fails: the code removes the descriptor
first. With a backend whose unmap fails, the error is propagated but the
descriptor is already gone from the region list — under the claimed order
the list would still contain it. -/
theorem C9_unmap_memory_counterexample :
    (Vm.unmap_memory (fun _ => .error (.ArchError 42)) [sampleRegion] 0 4096).1 =
      .error (.ArchError 42) ∧
    (Vm.unmap_memory (fun _ => .error (.ArchError 42)) [sampleRegion] 0 4096).2 =
      [] :=
  ⟨rfl, rfl⟩

/-- C9 (amended): `unmap_memory` requires an exact match on both guest
address and size: with no match it fails with `InvalidMemoryRegion` and
the region list is unchanged; with a match it removes that descriptor from
the list first and then delegates to the backend, returning the backend's
result with the descriptor already removed. -/
theorem C9_unmap_memory_amended (arch : MemoryRegion → Except HypervisorError Unit)
    (regions : List MemoryRegion) (gpa size : Nat) :
    ((∀ r ∈ regions, ¬(r.gpa = gpa ∧ r.size = size)) →
      Vm.unmap_memory arch regions gpa size = (.error .InvalidMemoryRegion, regions)) ∧
    (∀ idx, regions.findIdx? (unmapMatches gpa size) = some idx →
      Vm.unmap_memory arch regions gpa size =
        (arch (regions.getD idx ⟨0, 0, 0, 0⟩), regions.eraseIdx idx)) := by
  constructor
  · intro h
    have hnone : regions.findIdx? (unmapMatches gpa size) = none := by
      rw [List.findIdx?_eq_none_iff]
      intro r hr
      have hr' := h r hr
      simp only [unmapMatches, Bool.and_eq_true, decide_eq_true_eq] at hr' ⊢
      simpa using hr'
    simp [Vm.unmap_memory, hnone]
  · intro idx hidx
    simp only [Vm.unmap_memory, hidx]
    cases harch : arch (regions.getD idx ⟨0, 0, 0, 0⟩) with
    | error e => rfl
    | ok u =>
      cases u
      rfl

/-- C9 witness: the amended statement at a concrete region list with the
always-succeeding x86 backend: no match on a different guest address, and
an exact match that removes the descriptor. -/
theorem C9_unmap_memory_amended_witness :
    Vm.unmap_memory ArchVmData.unmap_memory [sampleRegion] 0x9000 4096 =
      (.error .InvalidMemoryRegion, [sampleRegion]) ∧
    Vm.unmap_memory ArchVmData.unmap_memory [sampleRegion] 0 4096 =
      (ArchVmData.unmap_memory ([sampleRegion].getD 0 ⟨0, 0, 0, 0⟩),
        [sampleRegion].eraseIdx 0) :=
  ⟨(C9_unmap_memory_amended ArchVmData.unmap_memory [sampleRegion] 0x9000 4096).1
      (by decide),
   (C9_unmap_memory_amended ArchVmData.unmap_memory [sampleRegion] 0 4096).2 0
      (by decide)⟩

end Hypervisor
